import Mathlib

/-!
Formal model of the CPU-view engine of lxcfs (`src/proc_cpuview.c`).

The C code is shallowly embedded: every counter (`unsigned long` in C) is a
`Nat`; every subtraction performed by the C code is either explicitly guarded
in the source (`newer > older ? newer - older : 0`) or guarded at the call
site (`threshold - user - system` is only computed after checking
`user + system < threshold`), so Lean's truncated `Nat` subtraction agrees
with the C semantics at every use.  `int64_t` quota/period values are `Int`;
the `double` value `exact_cpus` is modelled as a rational number (the inputs
used in concrete theorems below are dyadic, where double and rational
arithmetic agree, and the final correction is truncated to an integer in both
models).  Arrays are `List`s with `List.getD`/`List.set` access; an explicit
trace of the indices at which the parsing loop touches the `cg_cpu_usage`
array is carried so that in-bounds claims are statable.  Mutex state is
modelled by a boolean `lockHeld` describing whether the per-node mutex is
still held when `cpuview_proc_stat` returns.  Allocation outcomes
(`malloc` of the node and of the scratch `diff` array) are injected as
boolean parameters.
-/

namespace Cpuview

/-- Per-CPU sample, mirroring `struct cpuacct_usage` (user/system/idle in
ticks plus the online flag). -/
structure CpuacctUsage where
  user : Nat
  system : Nat
  idle : Nat
  online : Bool
deriving DecidableEq, Repr

/-- Default / zero entry, also used as the `List.getD` fallback. -/
def zeroU : CpuacctUsage := { user := 0, system := 0, idle := 0, online := false }

/-- Per-cgroup node, mirroring `struct cg_proc_stat` (the `cg` string, the
mutex and the chain pointer are handled outside of this data model). -/
structure CgProcStat where
  usage : List CpuacctUsage
  view : List CpuacctUsage
  cpu_count : Nat
deriving DecidableEq, Repr

/-- A line of the host's /proc/stat as classified by the two `sscanf` calls of
`cpuview_proc_stat`: either a `cpuN` line carrying ten numeric fields (we keep
the raw text so pass-through rendering can be modelled), or any other line. -/
inductive HostLine where
  | cpuLn (raw : String) (n user nice system idle iowait irq softirq steal guest guest_nice : Nat)
  | otherLn (raw : String)
deriving DecidableEq, Repr

/-- The raw text of a host line. -/
def HostLine.raw : HostLine → String
  | .cpuLn r _ _ _ _ _ _ _ _ _ _ _ => r
  | .otherLn r => r

/-- `reset_proc_stat_node`: `memcpy` the first `cpu_count` sample entries over
`node->usage`, zero the user/system/idle fields of the first `cpu_count`
`view` entries, and set `node->cpu_count`.  Allocation sizes (list lengths)
are unchanged. -/
def reset_proc_stat_node (node : CgProcStat) (sample : List CpuacctUsage) (cpu_count : Nat) :
    CgProcStat :=
  { usage := (List.range node.usage.length).map fun i =>
      if i < cpu_count then sample.getD i zeroU else node.usage.getD i zeroU
    view := (List.range node.view.length).map fun i =>
      if i < cpu_count then { node.view.getD i zeroU with user := 0, system := 0, idle := 0 }
      else node.view.getD i zeroU
    cpu_count := cpu_count }

/-- `expand_proc_stat_node` (successful allocation case): fresh arrays of
length `cpu_count`, copying the user/system/idle fields of existing entries
and zero-initialising the tail.  (In C the `online` flags of the new arrays
are uninitialised; they are overwritten before ever being read, so the model
carries the old flag for copied entries and `false` for new ones.) -/
def expand_proc_stat_node (node : CgProcStat) (cpu_count : Nat) : CgProcStat :=
  { usage := (List.range cpu_count).map fun i =>
      if i < node.cpu_count then node.usage.getD i zeroU else zeroU
    view := (List.range cpu_count).map fun i =>
      if i < node.cpu_count then node.view.getD i zeroU else zeroU
    cpu_count := cpu_count }

/-- `new_proc_stat_node` (successful allocation case): `usage` is a copy of
the sample, `view` entries have user/system/idle zeroed (the C code leaves
`view[i].online` uninitialised and never reads it; the model uses `false`). -/
def new_proc_stat_node (sample : List CpuacctUsage) (cpu_count : Nat) : CgProcStat :=
  { usage := (List.range cpu_count).map fun i => sample.getD i zeroU
    view := (List.range cpu_count).map fun _ => zeroU
    cpu_count := cpu_count }

/-- `find_or_create_proc_stat_node`.  `found` is the outcome of the registry
lookup for the cgroup; `createOk` / `expandOk` inject the outcomes of the
allocations in `new_proc_stat_node` / `expand_proc_stat_node`.  A `some`
result is returned with the node mutex held; on the `none` results the mutex
is not held (the expansion-failure path unlocks before returning NULL). -/
def find_or_create_proc_stat_node (found : Option CgProcStat) (sample : List CpuacctUsage)
    (cpu_count : Nat) (createOk expandOk : Bool) : Option CgProcStat :=
  match found with
  | none => if createOk then some (new_proc_stat_node sample cpu_count) else none
  | some node =>
    if node.cpu_count < cpu_count then
      if expandOk then some (expand_proc_stat_node node cpu_count) else none
    else some node

/-- Which field of the diff entry `add_cpu_usage` credits (the C code passes a
pointer to `diff[i].user` or `diff[i].system`). -/
inductive SurplusKind where
  | user
  | system
deriving DecidableEq, Repr

/-- `add_cpu_usage`: credit ticks from a surplus pool into one counter of a
diff entry, bounded by the remaining headroom below `threshold` and by the
entry's idle ticks.  Every call site has checked `user + system < threshold`,
so the `Nat` subtraction below matches the C `unsigned long` arithmetic. -/
def add_cpu_usage (surplus : Nat) (usage : CpuacctUsage) (counter : SurplusKind)
    (threshold : Nat) : Nat × CpuacctUsage :=
  let free_space := threshold - usage.user - usage.system
  let free_space := if usage.idle < free_space then usage.idle else free_space
  let to_add := if surplus < free_space then surplus else free_space
  match counter with
  | .user =>
    (surplus - to_add, { usage with user := usage.user + to_add, idle := usage.idle - to_add })
  | .system =>
    (surplus - to_add, { usage with system := usage.system + to_add, idle := usage.idle - to_add })

/-- One entry of the scratch `diff` array as computed by `diff_cpu_usage`:
saturating per-field subtraction for online CPUs.  For offline CPUs the C
code leaves the entry unwritten and never reads it; the model uses zeroes.
The `online` field of a diff entry is likewise never written or read in C;
the model carries the sample's flag. -/
def diffEntry (older newer : CpuacctUsage) : CpuacctUsage :=
  if newer.online then
    { user := newer.user - older.user, system := newer.system - older.system,
      idle := newer.idle - older.idle, online := newer.online }
  else
    { user := 0, system := 0, idle := 0, online := newer.online }

/-- `diff_cpu_usage`: the per-CPU saturating deltas together with the total
(user+system+idle summed over online CPUs). -/
def diff_cpu_usage (older newer : List CpuacctUsage) (cpu_count : Nat) :
    List CpuacctUsage × Nat :=
  let diff := (List.range cpu_count).map fun i => diffEntry (older.getD i zeroU) (newer.getD i zeroU)
  let sum := (List.range cpu_count).foldl
    (fun s i =>
      if (newer.getD i zeroU).online then
        s + (diff.getD i zeroU).user + (diff.getD i zeroU).system + (diff.getD i zeroU).idle
      else s) 0
  (diff, sum)

/-- `max_cpu_count`.  The two `read_cpu_cfs_param` reads are injected as
`Option Int` (`none` = unreadable file, giving the C early `return 0`);
`nr_cpus_in_cpuset` is the value obtained from `get_cpuset` /
`cpu_number_in_cpuset` (0 when no cpuset is available); `nprocs` is
`get_nprocs()`.  In the quota branch both operands are positive `int64_t`, so
C division agrees with `Nat` division on `Int.toNat`. -/
def max_cpu_count (cfs_quota cfs_period : Option Int) (nr_cpus_in_cpuset : Nat)
    (nprocs : Nat) : Nat :=
  match cfs_quota, cfs_period with
  | some quota, some period =>
    if quota ≤ 0 ∨ period ≤ 0 then
      if 0 < nr_cpus_in_cpuset then nr_cpus_in_cpuset else 0
    else
      let rv := quota.toNat / period.toNat
      let rv := if 0 < quota.toNat % period.toNat then rv + 1 else rv
      let rv := if nprocs < rv then nprocs else rv
      if 0 < nr_cpus_in_cpuset ∧ nr_cpus_in_cpuset < rv then nr_cpus_in_cpuset else rv
  | _, _ => 0

/-- `exact_cpu_count`, with the C `double` modelled as an exact rational kept
as an unnormalised numerator/denominator pair (the denominator is positive by
construction).  `nprocs < quota/period` is decided as `nprocs * period <
quota`, which is exact; C's double arithmetic agrees with the exact value on
the dyadic inputs used in the concrete theorems below. -/
def exact_cpu_count (cfs_quota cfs_period : Option Int) (nprocs : Nat) : Int × Int :=
  match cfs_quota, cfs_period with
  | some quota, some period =>
    if quota ≤ 0 ∨ period ≤ 0 then (0, 1)
    else if (nprocs : Int) * period < quota then ((nprocs : Int), 1) else (quota, period)
  | _, _ => (0, 1)

/-- Result of the /proc/stat parsing loop of `cpuview_proc_stat`.  `cur`
stores `curcpu + 1` (the C variable starts at −1; every use happens after the
increment, so the shifted representation stays in `Nat`).  `tr` is the trace
of indices at which the loop read or wrote the `cg_cpu_usage` array.
`lastRaw` is the content of the `getline` buffer when the loop ends. -/
structure ParseResult where
  sample : List CpuacctUsage
  cur : Nat
  cpu_cnt : Nat
  remaining : List HostLine
  tr : List Nat
  lastRaw : String
deriving DecidableEq, Repr

/-- Mark one sample entry offline (`cg_cpu_usage[i].online = false`). -/
def setOffline (smp : List CpuacctUsage) (i : Nat) : List CpuacctUsage :=
  smp.set i { smp.getD i zeroU with online := false }

/-- Mark a run of sample entries offline. -/
def setOfflineAll (smp : List CpuacctUsage) (is : List Nat) : List CpuacctUsage :=
  is.foldl setOffline smp

/-- The parsing loop of `cpuview_proc_stat` (lines reading host /proc/stat):
`cpuN` lines with `N ≥ size` are skipped; lines whose CPU is outside the
cpuset mark `cg_cpu_usage[curcpu..physcpu]` offline; otherwise gaps are
marked offline, `curcpu` catches up to `physcpu`, and the entry's idle time
is imputed from the host's busy time.  The first non-`cpu` line stops the
loop and is retained for pass-through. -/
def cpuviewParseGo (size : Nat) (inSet : Nat → Bool) :
    List HostLine → Nat → Nat → List CpuacctUsage → List Nat → String → ParseResult
  | [], cur, cnt, smp, tr, lastRaw =>
    { sample := smp, cur := cur, cpu_cnt := cnt, remaining := [], tr := tr, lastRaw := lastRaw }
  | HostLine.otherLn r :: rest, cur, cnt, smp, tr, lastRaw =>
    { sample := smp, cur := cur, cpu_cnt := cnt, remaining := HostLine.otherLn r :: rest,
      tr := tr, lastRaw := lastRaw }
  | HostLine.cpuLn r n u ni sy idl io irq so st g gn :: rest, cur, cnt, smp, tr, _ =>
    if size ≤ n then cpuviewParseGo size inSet rest cur cnt smp tr r
    else if ¬ inSet n then
      -- for (i = curcpu; i <= physcpu; i++) cg_cpu_usage[i].online = false;
      let is := List.range' cur (n + 1 - cur)
      cpuviewParseGo size inSet rest (cur + 1) (cnt + 1) (setOfflineAll smp is) (tr ++ is) r
    else
      -- if (curcpu < physcpu) { mark gap offline; curcpu = physcpu; }
      let is := List.range' cur (n - cur)
      let smp1 := setOfflineAll smp is
      let c := if cur < n then n else cur
      let e := smp1.getD c zeroU
      let all_used := u + ni + sy + io + irq + so + st + g + gn
      let cg_used := e.user + e.system
      let idle2 := if cg_used ≤ all_used then idl + (all_used - cg_used) else idl
      cpuviewParseGo size inSet rest (c + 1) (cnt + 1)
        (smp1.set c { e with idle := idle2, online := true }) (tr ++ is ++ [c]) r

/-- The parsing phase started from the C initial state (`curcpu = -1`,
`cpu_cnt = 0`). -/
def cpuviewParse (size : Nat) (inSet : Nat → Bool) (sample0 : List CpuacctUsage)
    (lines : List HostLine) : ParseResult :=
  cpuviewParseGo size inSet lines 0 0 sample0 [] ""

/-- First online CPU among `cg_cpu_usage[0..nprocs)` (the reset-detection
loop breaks after the first online entry). -/
def firstOnline (sample : List CpuacctUsage) (nprocs : Nat) : Option Nat :=
  (List.range nprocs).find? fun c => (sample.getD c zeroU).online

/-- Whether the reset branch of `cpuview_proc_stat` fires: the sample's user
time on the first online CPU is strictly below the stored usage. -/
def resetTriggered (sample : List CpuacctUsage) (node : CgProcStat) (nprocs : Nat) : Bool :=
  match firstOnline sample nprocs with
  | some c => decide ((sample.getD c zeroU).user < (node.usage.getD c zeroU).user)
  | none => false

/-- The reset-detection step of `cpuview_proc_stat`. -/
def resetPhase (node : CgProcStat) (sample : List CpuacctUsage) (nprocs : Nat) : CgProcStat :=
  if resetTriggered sample node nprocs then reset_proc_stat_node node sample nprocs else node

/-- The diff array a read computes (after the reset detection step),
i.e. the "per-sample delta" of that read. -/
def cpuviewDiff (nprocs : Nat) (sample : List CpuacctUsage) (node : CgProcStat) :
    List CpuacctUsage :=
  (diff_cpu_usage (resetPhase node sample nprocs).usage sample nprocs).1

/-- The loop updating `stat_node->usage` and collecting donor surpluses:
copies the online flags from the sample, accumulates the deltas into the
usage array, and credits the user/system deltas of online CPUs beyond the
first `maxCpus` to the surplus pools.  `v` is the count of online CPUs seen
so far (the C visible index `i` equals `v` after its increment). -/
def usageUpdateLoop (sample diff : List CpuacctUsage) (maxCpus : Nat) :
    List Nat → List CpuacctUsage → Nat → Nat → Nat → List CpuacctUsage × Nat × Nat
  | [], usage, _, us, ss => (usage, us, ss)
  | c :: cs, usage, v, us, ss =>
    let s := sample.getD c zeroU
    let u0 := usage.getD c zeroU
    if s.online then
      let d := diff.getD c zeroU
      let usage2 := usage.set c
        { user := u0.user + d.user, system := u0.system + d.system,
          idle := u0.idle + d.idle, online := s.online }
      if 0 < maxCpus ∧ maxCpus ≤ v then
        usageUpdateLoop sample diff maxCpus cs usage2 (v + 1) (us + d.user) (ss + d.system)
      else
        usageUpdateLoop sample diff maxCpus cs usage2 (v + 1) us ss
    else
      usageUpdateLoop sample diff maxCpus cs (usage.set c { u0 with online := s.online }) v us ss

/-- The surplus redistribution loop (only run when `maxCpus > 0`): for the
first `maxCpus` online CPUs whose user+system delta is below `threshold`,
draw from the user pool and then, if still below threshold, from the system
pool. -/
def redistLoop (usage : List CpuacctUsage) (maxCpus threshold : Nat) :
    List Nat → List CpuacctUsage → Nat → Nat → Nat → List CpuacctUsage × Nat × Nat
  | [], diff, _, us, ss => (diff, us, ss)
  | c :: cs, diff, v, us, ss =>
    if (usage.getD c zeroU).online then
      if v = maxCpus then (diff, us, ss)
      else
        let d := diff.getD c zeroU
        if threshold ≤ d.user + d.system then
          redistLoop usage maxCpus threshold cs diff (v + 1) us ss
        else
          let p1 := add_cpu_usage us d .user threshold
          if threshold ≤ p1.2.user + p1.2.system then
            redistLoop usage maxCpus threshold cs (diff.set c p1.2) (v + 1) p1.1 ss
          else
            let p2 := add_cpu_usage ss p1.2 .system threshold
            redistLoop usage maxCpus threshold cs (diff.set c p2.2) (v + 1) p1.1 p2.1
    else redistLoop usage maxCpus threshold cs diff v us ss

/-- State of the view-accumulation loop (quota path). -/
structure AccumState where
  view : List CpuacctUsage
  user_sum : Nat
  system_sum : Nat
  idle_sum : Nat
  diff_user : Nat
  diff_system : Nat
  diff_idle : Nat
  max_diff_idle : Nat
  max_diff_idle_index : Nat
deriving DecidableEq, Repr

/-- The view-accumulation loop (quota path): add the (redistributed) deltas of
the first `maxCpus` online CPUs into `stat_node->view`, accumulate rendered
sums from the updated view values, the delta totals, and the index with the
largest idle delta. -/
def accumLoop (usage diff : List CpuacctUsage) (maxCpus : Nat) :
    List Nat → Nat → AccumState → AccumState
  | [], _, st => st
  | c :: cs, v, st =>
    if (usage.getD c zeroU).online then
      if v = maxCpus then st
      else
        let d := diff.getD c zeroU
        let w0 := st.view.getD c zeroU
        let w := { w0 with user := w0.user + d.user, system := w0.system + d.system,
                           idle := w0.idle + d.idle }
        accumLoop usage diff maxCpus cs (v + 1)
          { view := st.view.set c w
            user_sum := st.user_sum + w.user
            system_sum := st.system_sum + w.system
            idle_sum := st.idle_sum + w.idle
            diff_user := st.diff_user + d.user
            diff_system := st.diff_system + d.system
            diff_idle := st.diff_idle + d.idle
            max_diff_idle := if st.max_diff_idle < d.idle then d.idle else st.max_diff_idle
            max_diff_idle_index := if st.max_diff_idle < d.idle then c else st.max_diff_idle_index }
    else accumLoop usage diff maxCpus cs v st

/-- The partial-CPU idle correction: when `exact_cpus < max_cpus`, subtract
`delta = trunc(total_delta * (1 - exact_cpus/max_cpus))` (saturating) from the
rendered idle sum and from the view idle of the CPU with the largest idle
delta.  With `exact_cpus = num/den` (`den > 0`), the comparison
`exact_cpus < max_cpus` is `num < max_cpus * den`, and
`total * (1 - exact_cpus/max_cpus) = total * (max_cpus * den - num) /
(max_cpus * den)`; C truncates the non-negative double toward zero, which is
the `Int` division below. -/
def idleCorrection (exact_cpus : Int × Int) (maxCpus : Nat) (st : AccumState) : AccumState :=
  if exact_cpus.1 < (maxCpus : Int) * exact_cpus.2 then
    let delta : Nat :=
      (((st.diff_user + st.diff_system + st.diff_idle : Nat) : Int) *
          ((maxCpus : Int) * exact_cpus.2 - exact_cpus.1) /
        ((maxCpus : Int) * exact_cpus.2)).toNat
    let k := st.max_diff_idle_index
    let w := st.view.getD k zeroU
    { st with
      idle_sum := if delta < st.idle_sum then st.idle_sum - delta else 0
      view := st.view.set k { w with idle := if delta < w.idle then w.idle - delta else 0 } }
  else st

/-- The quota path of `cpuview_proc_stat` after the usage-update loop:
redistribution with the given `threshold`, view accumulation, and the
partial-CPU idle correction.  Returns the new view and the three rendered
sums. -/
def quotaStep (nprocs maxCpus : Nat) (exact_cpus : Int × Int) (usage1 diff : List CpuacctUsage)
    (view : List CpuacctUsage) (us ss threshold : Nat) :
    List CpuacctUsage × Nat × Nat × Nat :=
  let r := redistLoop usage1 maxCpus threshold (List.range nprocs) diff 0 us ss
  let st := accumLoop usage1 r.1 maxCpus (List.range nprocs) 0
    { view := view, user_sum := 0, system_sum := 0, idle_sum := 0,
      diff_user := 0, diff_system := 0, diff_idle := 0,
      max_diff_idle := 0, max_diff_idle_index := 0 }
  let st := idleCorrection exact_cpus maxCpus st
  (st.view, st.user_sum, st.system_sum, st.idle_sum)

/-- The unlimited-quota path (`max_cpus == 0`): copy the usage accumulator
into the view for every online CPU and sum it. -/
def unquotaLoop (usage : List CpuacctUsage) :
    List Nat → List CpuacctUsage → Nat → Nat → Nat → List CpuacctUsage × Nat × Nat × Nat
  | [], view, us, ss, is => (view, us, ss, is)
  | c :: cs, view, us, ss, is =>
    let u := usage.getD c zeroU
    if u.online then
      let w0 := view.getD c zeroU
      let w := { w0 with user := u.user, system := u.system, idle := u.idle }
      unquotaLoop usage cs (view.set c w) (us + u.user) (ss + u.system) (is + u.idle)
    else unquotaLoop usage cs view us ss is

/-- Result of the reconcile phase of a read: the updated node and the three
sums rendered on the aggregate `cpu` line. -/
structure UpdateResult where
  node : CgProcStat
  user_sum : Nat
  system_sum : Nat
  idle_sum : Nat
deriving DecidableEq, Repr

/-- The reconcile phase of `cpuview_proc_stat` under the node mutex: reset
detection, delta computation, usage update with donor surplus collection,
then either the quota path (threshold `total_sum / cpu_cnt * max_cpus`,
redistribution, accumulation, idle correction) or the unlimited-quota path. -/
def cpuviewUpdate (nprocs maxCpus cpuCnt : Nat) (exact_cpus : Int × Int)
    (sample : List CpuacctUsage) (node0 : CgProcStat) : UpdateResult :=
  let node1 := resetPhase node0 sample nprocs
  let dt := diff_cpu_usage node1.usage sample nprocs
  let ur := usageUpdateLoop sample dt.1 maxCpus (List.range nprocs) node1.usage 0 0 0
  if 0 < maxCpus then
    let q := quotaStep nprocs maxCpus exact_cpus ur.1 dt.1 node1.view ur.2.1 ur.2.2
      (dt.2 / cpuCnt * maxCpus)
    { node := { node1 with usage := ur.1, view := q.1 },
      user_sum := q.2.1, system_sum := q.2.2.1, idle_sum := q.2.2.2 }
  else
    let w := unquotaLoop ur.1 (List.range nprocs) node1.view 0 0 0
    { node := { node1 with usage := ur.1, view := w.1 },
      user_sum := w.2.1, system_sum := w.2.2.1, idle_sum := w.2.2.2 }

/-- The aggregate line `cpu  {user} 0 {system} {idle} 0 0 0 0 0 0\n` (two
spaces after the label, as in the C format string). -/
def cpuAllLine (u s i : Nat) : String :=
  "cpu  " ++ toString u ++ " 0 " ++ toString s ++ " " ++ toString i ++ " 0 0 0 0 0 0\n"

/-- A visible-CPU line `cpu{n} {user} 0 {system} {idle} 0 0 0 0 0 0\n`. -/
def cpuNLine (n u s i : Nat) : String :=
  "cpu" ++ toString n ++ " " ++ toString u ++ " 0 " ++ toString s ++ " " ++ toString i ++
    " 0 0 0 0 0 0\n"

/-- The render loop for visible CPUs: one line per online CPU with the
contiguous label `v`, stopping after `maxCpus` lines when `maxCpus > 0`. -/
def renderLoop (usage view : List CpuacctUsage) (maxCpus : Nat) :
    List Nat → Nat → List String
  | [], _ => []
  | c :: cs, v =>
    if (usage.getD c zeroU).online then
      if 0 < maxCpus ∧ v = maxCpus then []
      else
        cpuNLine v (view.getD c zeroU).user (view.getD c zeroU).system (view.getD c zeroU).idle ::
          renderLoop usage view maxCpus cs (v + 1)
    else renderLoop usage view maxCpus cs v

/-- The pass-through tail of the output: the retained first non-`cpuN` line
and the remainder of the host table verbatim.  When the host table ended
inside the cpu block, C re-prints the stale `getline` buffer. -/
def tailPieces (pr : ParseResult) : List String :=
  match pr.remaining with
  | [] => [pr.lastRaw]
  | l :: rest => l.raw :: rest.map HostLine.raw

/-- The sequence of `snprintf` writes into the output buffer: each piece must
fit strictly below the remaining capacity (`l >= buf_size` is the C
truncation check); on success return the concatenated output and the total
length. -/
def writePieces : List String → Nat → Option (String × Nat)
  | [], _ => some ("", 0)
  | p :: ps, bufSize =>
    if bufSize ≤ p.length then none
    else
      match writePieces ps (bufSize - p.length) with
      | none => none
      | some sm => some (p ++ sm.1, p.length + sm.2)

/-- Outcome of one `cpuview_proc_stat` call: the return value, the rendered
output (on success), the resulting node, and whether the per-node mutex is
still held when the function returns. -/
structure CpuviewRun where
  ret : Nat
  out : String
  node : Option CgProcStat
  lockHeld : Bool
deriving DecidableEq, Repr

/-- `cpuview_proc_stat`.  External inputs: the two cfs parameter reads, the
cpuset size and online-cpu count feeding `max_cpu_count` / `exact_cpu_count`,
the cpuset membership predicate, the cgroup per-CPU sample `cg_cpu_usage`
(of length `size = cg_cpu_usage_size`), the host /proc/stat lines, and
`get_nprocs_conf()`.  `found` is the registry lookup outcome and
`createOk`/`expandOk`/`allocDiffOk` inject allocation outcomes.  The C code
returns 0 on the failure paths; on the diff-allocation failure and on output
truncation it returns without releasing the node mutex (`lockHeld = true`). -/
def cpuview_proc_stat (cfs_quota cfs_period : Option Int)
    (nr_cpus_in_cpuset nprocsOnline : Nat) (inSet : Nat → Bool) (size : Nat)
    (sample0 : List CpuacctUsage) (lines : List HostLine) (nprocsConf : Nat)
    (found : Option CgProcStat) (createOk expandOk allocDiffOk : Bool)
    (bufSize : Nat) : CpuviewRun :=
  let maxCpus0 := max_cpu_count cfs_quota cfs_period nr_cpus_in_cpuset nprocsOnline
  let nprocs := if size < nprocsConf then size else nprocsConf
  let pr := cpuviewParse size inSet sample0 lines
  let maxCpus := if pr.cpu_cnt < maxCpus0 then pr.cpu_cnt else maxCpus0
  match find_or_create_proc_stat_node found pr.sample nprocs createOk expandOk with
  | none => { ret := 0, out := "", node := none, lockHeld := false }
  | some node0 =>
    if allocDiffOk then
      let r := cpuviewUpdate nprocs maxCpus pr.cpu_cnt
        (exact_cpu_count cfs_quota cfs_period nprocsOnline) pr.sample node0
      let pieces := cpuAllLine r.user_sum r.system_sum r.idle_sum ::
        (renderLoop r.node.usage r.node.view maxCpus (List.range nprocs) 0 ++ tailPieces pr)
      match writePieces pieces bufSize with
      | none => { ret := 0, out := "", node := some r.node, lockHeld := true }
      | some sm => { ret := sm.2, out := sm.1, node := some r.node, lockHeld := false }
    else { ret := 0, out := "", node := some node0, lockHeld := true }

/-! Helper definitions used only to state properties. -/

/-- Pointwise order on the three counter fields. -/
abbrev fieldsLe (a b : CpuacctUsage) : Prop :=
  a.user ≤ b.user ∧ a.system ≤ b.system ∧ a.idle ≤ b.idle

/-- Sum of the `user` fields of a list of entries. -/
def userSum (l : List CpuacctUsage) : Nat := (l.map CpuacctUsage.user).sum

/-- Sum of the `system` fields of a list of entries. -/
def sysSum (l : List CpuacctUsage) : Nat := (l.map CpuacctUsage.system).sum

/-- The online indices below `nprocs` of a usage array, in order. -/
def onlineIdx (usage : List CpuacctUsage) (nprocs : Nat) : List Nat :=
  (List.range nprocs).filter fun c => (usage.getD c zeroU).online

/-- Number of `cpuN` host lines with `N < size` before the first non-cpu
line. -/
def countCpuLines (size : Nat) : List HostLine → Nat
  | [] => 0
  | HostLine.otherLn _ :: _ => 0
  | HostLine.cpuLn _ n _ _ _ _ _ _ _ _ _ _ :: rest =>
    (if n < size then 1 else 0) + countCpuLines size rest

/-- The CPU numbers of the `cpuN` lines before the first non-cpu line. -/
def cpuNums : List HostLine → List Nat
  | [] => []
  | HostLine.otherLn _ :: _ => []
  | HostLine.cpuLn _ n _ _ _ _ _ _ _ _ _ _ :: rest => n :: cpuNums rest

/-- Concatenation of output pieces. -/
def catAll (l : List String) : String := l.foldr (· ++ ·) ""

/-- Total length of output pieces. -/
def sumLen (l : List String) : Nat := (l.map String.length).sum

/-- Placeholder node for reading an `Option CgProcStat`. -/
def noNode : CgProcStat := { usage := [], view := [], cpu_count := 0 }

/-! Concrete cpuset-gap scenario (host CPUs 0-3 online, cpuset restricted to
CPUs 0 and 2, quota two full CPUs). -/

/-- Cpuset membership for the gap scenario. -/
def cpusetGapSet : Nat → Bool := fun c => c == 0 || c == 2

/-- Cgroup per-CPU sample for the gap scenario. -/
def cpusetGapSample : List CpuacctUsage :=
  [{ user := 100, system := 50, idle := 0, online := false },
   { user := 0, system := 0, idle := 0, online := false },
   { user := 80, system := 40, idle := 0, online := false },
   { user := 0, system := 0, idle := 0, online := false }]

/-- Host /proc/stat table for the gap scenario. -/
def cpusetGapLines : List HostLine :=
  [HostLine.cpuLn "cpu0 500 0 200 300 0 0 0 0 0 0\n" 0 500 0 200 300 0 0 0 0 0 0,
   HostLine.cpuLn "cpu1 10 0 10 10 0 0 0 0 0 0\n" 1 10 0 10 10 0 0 0 0 0 0,
   HostLine.cpuLn "cpu2 400 0 100 600 0 0 0 0 0 0\n" 2 400 0 100 600 0 0 0 0 0 0,
   HostLine.cpuLn "cpu3 10 0 10 10 0 0 0 0 0 0\n" 3 10 0 10 10 0 0 0 0 0 0,
   HostLine.otherLn "intr 0 0 0\n"]

/-- The reconcile result of the gap scenario read (fresh node, quota
200000/100000, four host CPUs). -/
def cpusetGapRun : UpdateResult :=
  cpuviewUpdate 4 2 4 (200000, 100000)
    (cpuviewParse 4 cpusetGapSet cpusetGapSample cpusetGapLines).sample
    (new_proc_stat_node (cpuviewParse 4 cpusetGapSet cpusetGapSample cpusetGapLines).sample 4)

/-- The visible (online) indices of the gap scenario. -/
def cpusetGapVis : List Nat := onlineIdx cpusetGapRun.node.usage 4

/-- The output pieces of the gap scenario read. -/
def cpusetGapPieces : List String :=
  cpuAllLine cpusetGapRun.user_sum cpusetGapRun.system_sum cpusetGapRun.idle_sum ::
    ((List.range (min 2 cpusetGapVis.length)).map (fun j =>
      cpuNLine j (cpusetGapRun.node.view.getD (cpusetGapVis.getD j 0) zeroU).user
        (cpusetGapRun.node.view.getD (cpusetGapVis.getD j 0) zeroU).system
        (cpusetGapRun.node.view.getD (cpusetGapVis.getD j 0) zeroU).idle) ++
      (HostLine.otherLn "intr 0 0 0\n").raw :: List.map HostLine.raw [])

/-! General lemmas about list access. -/

theorem getD_set {α : Type} (l : List α) (c i : Nat) (x d : α) :
    (l.set c x).getD i d = if c = i ∧ c < l.length then x else l.getD i d := by
  by_cases h1 : c = i
  · subst h1
    by_cases h2 : c < l.length
    · simp [List.getD_eq_getElem?_getD, List.getElem?_set, h2]
    · have h3 : l.length ≤ c := le_of_not_lt h2
      simp [List.getD_eq_getElem?_getD, List.getElem?_set, h2, List.getElem?_eq_none h3]
  · simp [List.getD_eq_getElem?_getD, List.getElem?_set_ne h1, h1]

theorem getD_set_ne {α : Type} (l : List α) {c i : Nat} (h : c ≠ i) (x d : α) :
    (l.set c x).getD i d = l.getD i d := by
  simp [getD_set, h]

/-! Lemmas for the monotonicity of the view accumulator. -/

theorem fieldsLe_refl (a : CpuacctUsage) : fieldsLe a a := ⟨le_rfl, le_rfl, le_rfl⟩

theorem fieldsLe_trans {a b c : CpuacctUsage} (h1 : fieldsLe a b) (h2 : fieldsLe b c) :
    fieldsLe a c :=
  ⟨h1.1.trans h2.1, h1.2.1.trans h2.2.1, h1.2.2.trans h2.2.2⟩

/-- Setting index `c` of a list to a value dominating the old entry can only
grow every `getD`. -/
theorem getD_set_mono (l : List CpuacctUsage) (c : Nat) (x : CpuacctUsage)
    (h : fieldsLe (l.getD c zeroU) x) (i : Nat) :
    fieldsLe (l.getD i zeroU) ((l.set c x).getD i zeroU) := by
  by_cases hc : c = i ∧ c < l.length
  · rw [getD_set, if_pos hc, ← hc.1]
    exact h
  · rw [getD_set, if_neg hc]
    exact fieldsLe_refl _

theorem accumLoop_view_mono (usage diff : List CpuacctUsage) (maxCpus : Nat) :
    ∀ (is : List Nat) (v : Nat) (st : AccumState) (w : List CpuacctUsage) (i : Nat),
      fieldsLe (w.getD i zeroU) (st.view.getD i zeroU) →
      fieldsLe (w.getD i zeroU)
        ((accumLoop usage diff maxCpus is v st).view.getD i zeroU)
  | [], _, _, _, _, h => h
  | c :: cs, v, st, w, i, h => by
    simp only [accumLoop]
    split
    · split
      · exact h
      · refine accumLoop_view_mono usage diff maxCpus cs (v + 1) _ w i ?_
        refine fieldsLe_trans h (getD_set_mono st.view c _ ?_ i)
        exact ⟨Nat.le_add_right _ _, Nat.le_add_right _ _, Nat.le_add_right _ _⟩
    · exact accumLoop_view_mono usage diff maxCpus cs v st w i h

theorem usageUpdateLoop_usage_mono (sample diff : List CpuacctUsage) (maxCpus : Nat) :
    ∀ (is : List Nat) (usage : List CpuacctUsage) (v us ss : Nat) (w : List CpuacctUsage)
      (i : Nat),
      fieldsLe (w.getD i zeroU) (usage.getD i zeroU) →
      fieldsLe (w.getD i zeroU)
        ((usageUpdateLoop sample diff maxCpus is usage v us ss).1.getD i zeroU)
  | [], _, _, _, _, _, _, h => h
  | c :: cs, usage, v, us, ss, w, i, h => by
    simp only [usageUpdateLoop]
    split
    · split
      · refine usageUpdateLoop_usage_mono sample diff maxCpus cs _ _ _ _ w i ?_
        refine fieldsLe_trans h (getD_set_mono usage c _ ?_ i)
        exact ⟨Nat.le_add_right _ _, Nat.le_add_right _ _, Nat.le_add_right _ _⟩
      · refine usageUpdateLoop_usage_mono sample diff maxCpus cs _ _ _ _ w i ?_
        refine fieldsLe_trans h (getD_set_mono usage c _ ?_ i)
        exact ⟨Nat.le_add_right _ _, Nat.le_add_right _ _, Nat.le_add_right _ _⟩
    · refine usageUpdateLoop_usage_mono sample diff maxCpus cs _ _ _ _ w i ?_
      refine fieldsLe_trans h (getD_set_mono usage c _ ?_ i)
      exact ⟨le_rfl, le_rfl, le_rfl⟩

theorem unquotaLoop_view_ge (usage : List CpuacctUsage) :
    ∀ (is : List Nat) (view : List CpuacctUsage) (us ss ids : Nat) (w : List CpuacctUsage)
      (i : Nat),
      (∀ j, fieldsLe (view.getD j zeroU) (usage.getD j zeroU)) →
      fieldsLe (w.getD i zeroU) (view.getD i zeroU) →
      fieldsLe (w.getD i zeroU) ((unquotaLoop usage is view us ss ids).1.getD i zeroU)
  | [], _, _, _, _, _, _, _, h => h
  | c :: cs, view, us, ss, ids, w, i, hyp, h => by
    simp only [unquotaLoop]
    split
    · refine unquotaLoop_view_ge usage cs _ _ _ _ w i ?_ ?_
      · intro j
        by_cases hc : c = j ∧ c < view.length
        · rw [getD_set, if_pos hc, ← hc.1]
          exact fieldsLe_refl _
        · rw [getD_set, if_neg hc]
          exact hyp j
      · refine fieldsLe_trans h (getD_set_mono view c _ ?_ i)
        exact hyp c
    · exact unquotaLoop_view_ge usage cs view us ss ids w i hyp h


/-! Claim C1. -/

/-- C1 (amended): for reads of `cpuview_proc_stat` on a fixed cgroup with no
counter reset (the reset branch does not fire) and in which the partial-CPU
idle correction does not fire (`exact_cpus ≥ max_cpus`, trivially so when
`max_cpus = 0`), every stored per-CPU view field (user, system, idle) is
non-decreasing across the read.  In the unlimited-quota mode (`max_cpus = 0`)
this relies on the invariant, maintained by that mode, that the view never
exceeds the usage accumulator.  (The unamended claim is refuted by
`C1_view_monotone_cex`: the partial-CPU idle correction can decrease
`view[i].idle` between reads.) -/
theorem C1_view_monotone (nprocs maxCpus cpuCnt : Nat) (exact_cpus : Int × Int)
    (sample : List CpuacctUsage) (node : CgProcStat) (i : Nat)
    (hreset : resetTriggered sample node nprocs = false)
    (hcorr : (maxCpus : Int) * exact_cpus.2 ≤ exact_cpus.1 ∨ maxCpus = 0)
    (hmode : maxCpus = 0 →
      ∀ j, fieldsLe (node.view.getD j zeroU) (node.usage.getD j zeroU)) :
    fieldsLe (node.view.getD i zeroU)
      ((cpuviewUpdate nprocs maxCpus cpuCnt exact_cpus sample node).node.view.getD i zeroU) := by
  have hrp : resetPhase node sample nprocs = node := by
    simp [resetPhase, hreset]
  simp only [cpuviewUpdate, hrp]
  split
  next hm =>
    have hc2 : (maxCpus : Int) * exact_cpus.2 ≤ exact_cpus.1 := by
      rcases hcorr with h | h
      · exact h
      · omega
    simp only [quotaStep, idleCorrection, if_neg (not_lt.mpr hc2)]
    exact accumLoop_view_mono _ _ maxCpus (List.range nprocs) 0 _ node.view i
      (fieldsLe_refl _)
  next hm =>
    have hz : maxCpus = 0 := by omega
    refine unquotaLoop_view_ge _ (List.range nprocs) node.view 0 0 0 node.view i ?_
      (fieldsLe_refl _)
    intro j
    exact usageUpdateLoop_usage_mono sample _ maxCpus (List.range nprocs) node.usage 0 0 0
      node.view j (hmode hz j)


/-- C1 (counterexample to the claim as stated): three consecutive
`cpuview_proc_stat` reads of the same cgroup (`quota = 50000`,
`period = 100000`, cpuset `{0}`, one host CPU), with non-decreasing host
counters (`cpu0` user 100,100,200; idle 0,100,100), non-decreasing cgroup
counters (user 100,100,200) and no counter reset (checked by the last
conjunct), after which the stored `view[0].idle` drops from 50 to 0: the
partial-CPU idle correction (`exact_cpus = 1/2 < max_cpus = 1`) subtracts
more than the read's idle delta. -/
theorem C1_view_monotone_cex :
    (cpuview_proc_stat (some 50000) (some 100000) 1 1 (fun n => n = 0) 1
          [{ user := 100, system := 0, idle := 0, online := false }]
          [HostLine.cpuLn "cpu0 100 0 0 100 0 0 0 0 0 0\n" 0 100 0 0 100 0 0 0 0 0 0,
            HostLine.otherLn "intr 0\n"] 1
          (cpuview_proc_stat (some 50000) (some 100000) 1 1 (fun n => n = 0) 1
            [{ user := 100, system := 0, idle := 0, online := false }]
            [HostLine.cpuLn "cpu0 100 0 0 0 0 0 0 0 0 0\n" 0 100 0 0 0 0 0 0 0 0 0,
              HostLine.otherLn "intr 0\n"] 1 none true true true 4096).node
          true true true 4096).node.elim zeroU (fun n => n.view.getD 0 zeroU) =
        { user := 0, system := 0, idle := 50, online := false } ∧
      (cpuview_proc_stat (some 50000) (some 100000) 1 1 (fun n => n = 0) 1
          [{ user := 200, system := 0, idle := 0, online := false }]
          [HostLine.cpuLn "cpu0 200 0 0 100 0 0 0 0 0 0\n" 0 200 0 0 100 0 0 0 0 0 0,
            HostLine.otherLn "intr 0\n"] 1
          (cpuview_proc_stat (some 50000) (some 100000) 1 1 (fun n => n = 0) 1
            [{ user := 100, system := 0, idle := 0, online := false }]
            [HostLine.cpuLn "cpu0 100 0 0 100 0 0 0 0 0 0\n" 0 100 0 0 100 0 0 0 0 0 0,
              HostLine.otherLn "intr 0\n"] 1
            (cpuview_proc_stat (some 50000) (some 100000) 1 1 (fun n => n = 0) 1
              [{ user := 100, system := 0, idle := 0, online := false }]
              [HostLine.cpuLn "cpu0 100 0 0 0 0 0 0 0 0 0\n" 0 100 0 0 0 0 0 0 0 0 0,
                HostLine.otherLn "intr 0\n"] 1 none true true true 4096).node
            true true true 4096).node
          true true true 4096).node.elim zeroU (fun n => n.view.getD 0 zeroU) =
        { user := 100, system := 0, idle := 0, online := false } ∧
      resetTriggered
        (cpuviewParse 1 (fun n => n = 0)
          [{ user := 200, system := 0, idle := 0, online := false }]
          [HostLine.cpuLn "cpu0 200 0 0 100 0 0 0 0 0 0\n" 0 200 0 0 100 0 0 0 0 0 0,
            HostLine.otherLn "intr 0\n"]).sample
        ((cpuview_proc_stat (some 50000) (some 100000) 1 1 (fun n => n = 0) 1
          [{ user := 100, system := 0, idle := 0, online := false }]
          [HostLine.cpuLn "cpu0 100 0 0 100 0 0 0 0 0 0\n" 0 100 0 0 100 0 0 0 0 0 0,
            HostLine.otherLn "intr 0\n"] 1
          (cpuview_proc_stat (some 50000) (some 100000) 1 1 (fun n => n = 0) 1
            [{ user := 100, system := 0, idle := 0, online := false }]
            [HostLine.cpuLn "cpu0 100 0 0 0 0 0 0 0 0 0\n" 0 100 0 0 0 0 0 0 0 0 0,
              HostLine.otherLn "intr 0\n"] 1 none true true true 4096).node
          true true true 4096).node.getD noNode) 1 = false := by
  decide

/-- C1 (witness): the amended monotonicity theorem applied at a concrete
input (`nprocs = maxCpus = cpuCnt = 1`, `exact_cpus = 1/1`, no reset). -/
theorem C1_view_monotone_witness :
    resetTriggered [{ user := 5, system := 0, idle := 3, online := true }]
        { usage := [{ user := 3, system := 0, idle := 1, online := true }],
          view := [{ user := 1, system := 1, idle := 1, online := true }], cpu_count := 1 }
        1 = false ∧
      fieldsLe
        (({ usage := [{ user := 3, system := 0, idle := 1, online := true }],
            view := [{ user := 1, system := 1, idle := 1, online := true }],
            cpu_count := 1 } : CgProcStat).view.getD 0 zeroU)
        ((cpuviewUpdate 1 1 1 (1, 1)
            [{ user := 5, system := 0, idle := 3, online := true }]
            { usage := [{ user := 3, system := 0, idle := 1, online := true }],
              view := [{ user := 1, system := 1, idle := 1, online := true }],
              cpu_count := 1 }).node.view.getD 0 zeroU) :=
  ⟨by decide,
    C1_view_monotone 1 1 1 (1, 1)
      [{ user := 5, system := 0, idle := 3, online := true }]
      { usage := [{ user := 3, system := 0, idle := 1, online := true }],
        view := [{ user := 1, system := 1, idle := 1, online := true }], cpu_count := 1 }
      0 (by decide) (Or.inl (by decide)) (fun h => (Nat.one_ne_zero h).elim)⟩


/-! Claim C2. -/

/-- The parsing loop's `cpu_cnt` counts every `cpuN` line with `N < size`,
whether or not the CPU is in the cpuset. -/
theorem cpuviewParseGo_cpu_cnt (size : Nat) (inSet : Nat → Bool) :
    ∀ (lines : List HostLine) (cur cnt : Nat) (smp : List CpuacctUsage) (tr : List Nat)
      (lr : String),
      (cpuviewParseGo size inSet lines cur cnt smp tr lr).cpu_cnt =
        cnt + countCpuLines size lines
  | [], _, _, _, _, _ => by simp [cpuviewParseGo, countCpuLines]
  | HostLine.otherLn r :: rest, _, _, _, _, _ => by
    simp [cpuviewParseGo, countCpuLines]
  | HostLine.cpuLn r n u ni sy idl io irq so st g gn :: rest, cur, cnt, smp, tr, lr => by
    rw [cpuviewParseGo, countCpuLines]
    by_cases hn : size ≤ n
    · rw [if_pos hn, cpuviewParseGo_cpu_cnt size inSet rest, if_neg (by omega)]
      omega
    · rw [if_neg hn]
      by_cases hs : inSet n
      · rw [if_neg (by simp [hs]), cpuviewParseGo_cpu_cnt size inSet rest, if_pos (by omega)]
        omega
      · rw [if_pos (by simp [hs]), cpuviewParseGo_cpu_cnt size inSet rest, if_pos (by omega)]
        omega

/-- C2 (counterexample to the claim as stated): a host table with lines
`cpu0`, `cpu1` and cpuset `{0}` gives `cpu_cnt = 2` although only one host
CPU is online and in the cpuset: `cpu_cnt` is incremented before the cpuset
membership test. -/
theorem C2_cpu_cnt_cex :
    (cpuviewParse 2 (fun n => n = 0) [zeroU, zeroU]
        [HostLine.cpuLn "cpu0 0 0 0 0 0 0 0 0 0 0\n" 0 0 0 0 0 0 0 0 0 0 0,
          HostLine.cpuLn "cpu1 0 0 0 0 0 0 0 0 0 0\n" 1 0 0 0 0 0 0 0 0 0 0,
          HostLine.otherLn "intr 0\n"]).cpu_cnt = 2 ∧
      (onlineIdx
        (cpuviewParse 2 (fun n => n = 0) [zeroU, zeroU]
          [HostLine.cpuLn "cpu0 0 0 0 0 0 0 0 0 0 0\n" 0 0 0 0 0 0 0 0 0 0 0,
            HostLine.cpuLn "cpu1 0 0 0 0 0 0 0 0 0 0\n" 1 0 0 0 0 0 0 0 0 0 0,
            HostLine.otherLn "intr 0\n"]).sample 2).length = 1 ∧
      ¬ (cpuviewParse 2 (fun n => n = 0) [zeroU, zeroU]
          [HostLine.cpuLn "cpu0 0 0 0 0 0 0 0 0 0 0\n" 0 0 0 0 0 0 0 0 0 0 0,
            HostLine.cpuLn "cpu1 0 0 0 0 0 0 0 0 0 0\n" 1 0 0 0 0 0 0 0 0 0 0,
            HostLine.otherLn "intr 0\n"]).cpu_cnt =
        (onlineIdx
          (cpuviewParse 2 (fun n => n = 0) [zeroU, zeroU]
            [HostLine.cpuLn "cpu0 0 0 0 0 0 0 0 0 0 0\n" 0 0 0 0 0 0 0 0 0 0 0,
              HostLine.cpuLn "cpu1 0 0 0 0 0 0 0 0 0 0\n" 1 0 0 0 0 0 0 0 0 0 0,
              HostLine.otherLn "intr 0\n"]).sample 2).length := by
  decide

/-- C2 (amended): `cpu_cnt` equals the number of host `cpuN` lines with
`N < cg_cpu_usage_size` before the first non-cpu line, regardless of cpuset
membership; and when `max_cpus > 0` the whole quota path — hence the
redistribution ceiling of every visible CPU — is run with the single value
`threshold = total_sum / cpu_cnt * max_cpus` (integer division). -/
theorem C2_cpu_cnt_threshold (size : Nat) (inSet : Nat → Bool)
    (sample0 : List CpuacctUsage) (lines : List HostLine)
    (nprocs maxCpus cpuCnt : Nat) (exact_cpus : Int × Int)
    (sample : List CpuacctUsage) (node : CgProcStat) (hm : 0 < maxCpus) :
    (cpuviewParse size inSet sample0 lines).cpu_cnt = countCpuLines size lines ∧
      cpuviewUpdate nprocs maxCpus cpuCnt exact_cpus sample node =
        (let node1 := resetPhase node sample nprocs
         let dt := diff_cpu_usage node1.usage sample nprocs
         let ur := usageUpdateLoop sample dt.1 maxCpus (List.range nprocs) node1.usage 0 0 0
         let q := quotaStep nprocs maxCpus exact_cpus ur.1 dt.1 node1.view ur.2.1 ur.2.2
           (dt.2 / cpuCnt * maxCpus)
         { node := { node1 with usage := ur.1, view := q.1 },
           user_sum := q.2.1, system_sum := q.2.2.1, idle_sum := q.2.2.2 }) := by
  constructor
  · rw [cpuviewParse, cpuviewParseGo_cpu_cnt, Nat.zero_add]
  · simp only [cpuviewUpdate]
    rw [if_pos hm]

/-- C2 (witness): the amended theorem applied at a concrete input. -/
theorem C2_cpu_cnt_threshold_witness :
    (cpuviewParse 1 (fun _ => true) [zeroU]
        [HostLine.cpuLn "cpu0 1 0 0 0 0 0 0 0 0 0\n" 0 1 0 0 0 0 0 0 0 0 0]).cpu_cnt =
      countCpuLines 1
        [HostLine.cpuLn "cpu0 1 0 0 0 0 0 0 0 0 0\n" 0 1 0 0 0 0 0 0 0 0 0] ∧
      cpuviewUpdate 1 1 1 (1, 1) [{ user := 1, system := 0, idle := 0, online := true }]
          { usage := [zeroU], view := [zeroU], cpu_count := 1 } =
        (let node1 := resetPhase { usage := [zeroU], view := [zeroU], cpu_count := 1 }
           [{ user := 1, system := 0, idle := 0, online := true }] 1
         let dt := diff_cpu_usage node1.usage
           [{ user := 1, system := 0, idle := 0, online := true }] 1
         let ur := usageUpdateLoop [{ user := 1, system := 0, idle := 0, online := true }]
           dt.1 1 (List.range 1) node1.usage 0 0 0
         let q := quotaStep 1 1 (1, 1) ur.1 dt.1 node1.view ur.2.1 ur.2.2 (dt.2 / 1 * 1)
         { node := { node1 with usage := ur.1, view := q.1 },
           user_sum := q.2.1, system_sum := q.2.2.1, idle_sum := q.2.2.2 }) :=
  C2_cpu_cnt_threshold 1 (fun _ => true) [zeroU]
    [HostLine.cpuLn "cpu0 1 0 0 0 0 0 0 0 0 0\n" 0 1 0 0 0 0 0 0 0 0 0]
    1 1 1 (1, 1) [{ user := 1, system := 0, idle := 0, online := true }]
    { usage := [zeroU], view := [zeroU], cpu_count := 1 } (by decide)

/-! Claim C3. -/

/-- C3 (code bug): when `cpuview_proc_stat` fails after the per-cgroup node
has been locked, it returns 0 while STILL HOLDING the node mutex — the
`return 0` after the failed `malloc` of the scratch `diff` array and the
`return 0`s on output-buffer truncation skip the single
`pthread_mutex_unlock` at the end of the function.  First conjunct pair:
diff-allocation failure; second pair: a 10-byte output buffer that truncates
the aggregate line.  Both runs return 0 with `lockHeld = true`, contradicting
the claim (and the spec's "release all locks, return 0"). -/
theorem C3_lock_leak :
    (cpuview_proc_stat (some 100000) (some 100000) 1 1 (fun n => n = 0) 1
        [{ user := 1, system := 0, idle := 0, online := false }]
        [HostLine.cpuLn "cpu0 1 0 0 0 0 0 0 0 0 0\n" 0 1 0 0 0 0 0 0 0 0 0,
          HostLine.otherLn "intr 0\n"] 1 none true true false 4096).ret = 0 ∧
      (cpuview_proc_stat (some 100000) (some 100000) 1 1 (fun n => n = 0) 1
        [{ user := 1, system := 0, idle := 0, online := false }]
        [HostLine.cpuLn "cpu0 1 0 0 0 0 0 0 0 0 0\n" 0 1 0 0 0 0 0 0 0 0 0,
          HostLine.otherLn "intr 0\n"] 1 none true true false 4096).lockHeld = true ∧
      (cpuview_proc_stat (some 100000) (some 100000) 1 1 (fun n => n = 0) 1
        [{ user := 1, system := 0, idle := 0, online := false }]
        [HostLine.cpuLn "cpu0 1 0 0 0 0 0 0 0 0 0\n" 0 1 0 0 0 0 0 0 0 0 0,
          HostLine.otherLn "intr 0\n"] 1 none true true true 10).ret = 0 ∧
      (cpuview_proc_stat (some 100000) (some 100000) 1 1 (fun n => n = 0) 1
        [{ user := 1, system := 0, idle := 0, online := false }]
        [HostLine.cpuLn "cpu0 1 0 0 0 0 0 0 0 0 0\n" 0 1 0 0 0 0 0 0 0 0 0,
          HostLine.otherLn "intr 0\n"] 1 none true true true 10).lockHeld = true := by
  decide


/-! Claim C4. -/

/-- Truncating division plus a remainder bump is ceiling division. -/
theorem div_bump_eq_ceil (a p : Nat) (hp : 0 < p) :
    (if 0 < a % p then a / p + 1 else a / p) = (a + p - 1) / p := by
  obtain ⟨k, r, hr, rfl⟩ : ∃ k r, r < p ∧ a = p * k + r :=
    ⟨a / p, a % p, Nat.mod_lt a hp, (Nat.div_add_mod a p).symm⟩
  have hm : (p * k + r) % p = r % p := Nat.mul_add_mod p k r
  have hmr : r % p = r := Nat.mod_eq_of_lt hr
  have hdv : (p * k + r) / p = r / p + k := by
    rw [Nat.add_comm (p * k) r, Nat.add_mul_div_left r k hp]
  have hr0 : r / p = 0 := Nat.div_eq_of_lt hr
  rcases Nat.eq_zero_or_pos r with rfl | hpos
  · rw [hm, hmr, if_neg (lt_irrefl 0), hdv, hr0]
    have he : p * k + 0 + p - 1 = (p - 1) + p * k := by omega
    have hd1 : (p - 1) / p = 0 := Nat.div_eq_of_lt (by omega)
    rw [he, Nat.add_mul_div_left _ _ hp, hd1]
  · rw [hm, hmr, if_pos hpos, hdv, hr0]
    have hmul : p * (k + 1) = p * k + p := by ring
    have he : p * k + r + p - 1 = (r - 1) + p * (k + 1) := by omega
    have hd1 : (r - 1) / p = 0 := Nat.div_eq_of_lt (by omega)
    rw [he, Nat.add_mul_div_left _ _ hp, hd1]
    omega

/-- C4: for a cgroup whose quota and period files are both readable, if
`quota > 0` and `period > 0` then `max_cpu_count` returns
`ceil(quota/period)` clamped above by the host CPU count and, when the
cpuset CPU count is positive and smaller, by the cpuset CPU count; if
`quota ≤ 0` or `period ≤ 0` it returns the cpuset CPU count when that is
positive and 0 otherwise. -/
theorem C4_max_cpu_count (quota period : Int) (nr nprocs : Nat) :
    (0 < quota → 0 < period →
      max_cpu_count (some quota) (some period) nr nprocs =
        (if 0 < nr ∧ nr < min ((quota.toNat + period.toNat - 1) / period.toNat) nprocs then nr
         else min ((quota.toNat + period.toNat - 1) / period.toNat) nprocs)) ∧
    (quota ≤ 0 ∨ period ≤ 0 →
      max_cpu_count (some quota) (some period) nr nprocs = if 0 < nr then nr else 0) := by
  constructor
  · intro hq hp
    have hp' : 0 < period.toNat := by omega
    simp only [max_cpu_count]
    rw [if_neg (by omega)]
    rw [div_bump_eq_ceil quota.toNat period.toNat hp']
    have h2 : (if nprocs < (quota.toNat + period.toNat - 1) / period.toNat then nprocs
        else (quota.toNat + period.toNat - 1) / period.toNat) =
        min ((quota.toNat + period.toNat - 1) / period.toNat) nprocs := by
      rcases Nat.lt_or_ge nprocs ((quota.toNat + period.toNat - 1) / period.toNat) with h | h
      · rw [if_pos h]; omega
      · rw [if_neg (not_lt.mpr h)]; omega
    rw [h2]
  · intro h
    simp only [max_cpu_count]
    rw [if_pos h]

/-- C4 (witness): both branches of the theorem applied at concrete inputs:
`quota/period = 1.5` with 4 host CPUs and no cpuset gives 2; unreadable-quota
semantics (`quota = -1`) with a 3-CPU cpuset gives 3. -/
theorem C4_max_cpu_count_witness :
    max_cpu_count (some 150000) (some 100000) 0 4 = 2 ∧
      max_cpu_count (some (-1)) (some 100000) 3 4 = 3 :=
  ⟨((C4_max_cpu_count 150000 100000 0 4).1 (by decide) (by decide)).trans (by decide),
    ((C4_max_cpu_count (-1) 100000 3 4).2 (Or.inl (by decide))).trans (by decide)⟩


/-! Claim C5. -/

theorem uext {a b : CpuacctUsage} (h1 : a.user = b.user) (h2 : a.system = b.system)
    (h3 : a.idle = b.idle) (h4 : a.online = b.online) : a = b := by
  cases a; cases b; simp_all

theorem getD_range_map {α : Type} (m i : Nat) (f : Nat → α) (d : α) :
    (((List.range m).map f).getD i d) = if i < m then f i else d := by
  by_cases h : i < m
  · rw [if_pos h, List.getD_eq_getElem?_getD, List.getElem?_map, List.getElem?_range h]
    rfl
  · rw [if_neg h, List.getD_eq_getElem?_getD, List.getElem?_eq_none]
    · rfl
    · simp only [List.length_map, List.length_range]
      omega

/-- After a reset, the first `cpu_count` usage entries equal the sample. -/
theorem reset_usage_getD (node : CgProcStat) (sample : List CpuacctUsage) (k i : Nat)
    (h1 : i < k) (h2 : i < node.usage.length) :
    (reset_proc_stat_node node sample k).usage.getD i zeroU = sample.getD i zeroU := by
  simp only [reset_proc_stat_node]
  rw [getD_range_map, if_pos h2, if_pos h1]

/-- After a reset, the first `cpu_count` view entries have zero fields. -/
theorem reset_view_getD (node : CgProcStat) (sample : List CpuacctUsage) (k i : Nat)
    (h1 : i < k) (h2 : i < node.view.length) :
    ((reset_proc_stat_node node sample k).view.getD i zeroU).user = 0 ∧
      ((reset_proc_stat_node node sample k).view.getD i zeroU).system = 0 ∧
      ((reset_proc_stat_node node sample k).view.getD i zeroU).idle = 0 := by
  simp only [reset_proc_stat_node]
  rw [getD_range_map, if_pos h2, if_pos h1]
  exact ⟨rfl, rfl, rfl⟩

/-- The diff of equal entries has zero fields. -/
theorem diffEntry_self (a : CpuacctUsage) :
    (diffEntry a a).user = 0 ∧ (diffEntry a a).system = 0 ∧ (diffEntry a a).idle = 0 := by
  unfold diffEntry
  split
  · exact ⟨Nat.sub_self _, Nat.sub_self _, Nat.sub_self _⟩
  · exact ⟨rfl, rfl, rfl⟩

/-- Updating one entry to a value equal to the sample entry preserves
pointwise agreement with the sample. -/
theorem set_preserve (usage sample : List CpuacctUsage) (c : Nat) (x : CpuacctUsage)
    (hx : x = sample.getD c zeroU) (c' : Nat)
    (h : usage.getD c' zeroU = sample.getD c' zeroU) :
    (usage.set c x).getD c' zeroU = sample.getD c' zeroU := by
  rw [getD_set]
  split
  next hc => rw [hx, hc.1]
  next => exact h

/-- When every diff entry it visits has zero fields and `usage` agrees with
the sample on the visited indices, the usage-update loop leaves every entry
that agreed with the sample equal to the sample and collects no surplus. -/
theorem usageUpdateLoop_zero_diff (sample diff : List CpuacctUsage) (maxCpus : Nat)
    (is : List Nat) :
    ∀ (usage : List CpuacctUsage) (v us ss : Nat),
      (∀ c ∈ is, (diff.getD c zeroU).user = 0 ∧ (diff.getD c zeroU).system = 0 ∧
        (diff.getD c zeroU).idle = 0) →
      (∀ c ∈ is, usage.getD c zeroU = sample.getD c zeroU) →
      (∀ i, usage.getD i zeroU = sample.getD i zeroU →
        (usageUpdateLoop sample diff maxCpus is usage v us ss).1.getD i zeroU =
          sample.getD i zeroU) ∧
      (usageUpdateLoop sample diff maxCpus is usage v us ss).2.1 = us ∧
      (usageUpdateLoop sample diff maxCpus is usage v us ss).2.2 = ss := by
  induction is with
  | nil =>
    intro usage v us ss _ _
    exact ⟨fun i hi => by simpa [usageUpdateLoop] using hi, rfl, rfl⟩
  | cons c cs ih =>
    intro usage v us ss hd hu
    have hdc := hd c (List.mem_cons_self c cs)
    have huc := hu c (List.mem_cons_self c cs)
    have hd' : ∀ c' ∈ cs, (diff.getD c' zeroU).user = 0 ∧
        (diff.getD c' zeroU).system = 0 ∧ (diff.getD c' zeroU).idle = 0 :=
      fun c' hc' => hd c' (List.mem_cons_of_mem c hc')
    have hu' : ∀ c' ∈ cs, usage.getD c' zeroU = sample.getD c' zeroU :=
      fun c' hc' => hu c' (List.mem_cons_of_mem c hc')
    have hxon : (⟨(usage.getD c zeroU).user + (diff.getD c zeroU).user,
        (usage.getD c zeroU).system + (diff.getD c zeroU).system,
        (usage.getD c zeroU).idle + (diff.getD c zeroU).idle,
        (sample.getD c zeroU).online⟩ : CpuacctUsage) = sample.getD c zeroU := by
      refine uext ?_ ?_ ?_ rfl
      · rw [huc, hdc.1, Nat.add_zero]
      · rw [huc, hdc.2.1, Nat.add_zero]
      · rw [huc, hdc.2.2, Nat.add_zero]
    have hxoff : (⟨(usage.getD c zeroU).user,
        (usage.getD c zeroU).system, (usage.getD c zeroU).idle,
        (sample.getD c zeroU).online⟩ : CpuacctUsage) = sample.getD c zeroU := by
      refine uext ?_ ?_ ?_ rfl
      · rw [huc]
      · rw [huc]
      · rw [huc]
    simp only [usageUpdateLoop]
    split
    next ho =>
      split
      next hv =>
        obtain ⟨h1, h2, h3⟩ := ih _ (v + 1) (us + (diff.getD c zeroU).user)
          (ss + (diff.getD c zeroU).system) hd'
          (fun c' hc' => set_preserve usage sample c _ hxon c' (hu' c' hc'))
        exact ⟨fun i hi => h1 i (set_preserve usage sample c _ hxon i hi),
          h2.trans (by rw [hdc.1]; exact Nat.add_zero us),
          h3.trans (by rw [hdc.2.1]; exact Nat.add_zero ss)⟩
      next hv =>
        obtain ⟨h1, h2, h3⟩ := ih _ (v + 1) us ss hd'
          (fun c' hc' => set_preserve usage sample c _ hxon c' (hu' c' hc'))
        exact ⟨fun i hi => h1 i (set_preserve usage sample c _ hxon i hi), h2, h3⟩
    next ho =>
      obtain ⟨h1, h2, h3⟩ := ih _ v us ss hd'
        (fun c' hc' => set_preserve usage sample c _ hxoff c' (hu' c' hc'))
      exact ⟨fun i hi => h1 i (set_preserve usage sample c _ hxoff i hi), h2, h3⟩


/-- Crediting from an empty surplus pool changes nothing. -/
theorem add_cpu_usage_zero (u : CpuacctUsage) (k : SurplusKind) (thr : Nat) :
    add_cpu_usage 0 u k thr = (0, u) := by
  cases k <;>
    (simp only [add_cpu_usage]
     generalize (if u.idle < thr - u.user - u.system then u.idle
       else thr - u.user - u.system) = F
     have h0 : (if 0 < F then (0 : Nat) else F) = 0 := by split <;> omega
     rw [h0]
     rfl)

/-- Setting an entry to its own current value leaves every `getD` alone. -/
theorem getD_set_eqval {α : Type} (l : List α) (c i : Nat) (d : α) (x : α)
    (hx : x = l.getD c d) : (l.set c x).getD i d = l.getD i d := by
  rw [getD_set]
  split
  next h => rw [hx, h.1]
  next => rfl

/-- With both surplus pools empty, the redistribution loop credits nothing:
the pools stay zero and the diff array is unchanged pointwise. -/
theorem redistLoop_zero_surplus (usage : List CpuacctUsage) (maxCpus thr : Nat)
    (is : List Nat) :
    ∀ (diff : List CpuacctUsage) (v : Nat),
      (redistLoop usage maxCpus thr is diff v 0 0).2.1 = 0 ∧
      (redistLoop usage maxCpus thr is diff v 0 0).2.2 = 0 ∧
      ∀ i, (redistLoop usage maxCpus thr is diff v 0 0).1.getD i zeroU =
        diff.getD i zeroU := by
  induction is with
  | nil => intro diff v; exact ⟨rfl, rfl, fun _ => rfl⟩
  | cons c cs ih =>
    intro diff v
    simp only [redistLoop, add_cpu_usage_zero]
    split
    next ho =>
      split
      next hv => exact ⟨rfl, rfl, fun _ => rfl⟩
      next hv =>
        split
        next hth => exact ih diff (v + 1)
        next hth =>
          obtain ⟨h1, h2, h3⟩ := ih (diff.set c (diff.getD c zeroU)) (v + 1)
          exact ⟨h1, h2, fun i => (h3 i).trans (getD_set_eqval diff c i zeroU _ rfl)⟩
    next ho => exact ih diff v

/-- With zero diff entries on the visited indices, the view-accumulation loop
leaves the view unchanged pointwise and does not move the delta totals or the
maximum-idle index. -/
theorem accumLoop_zero_diff (usage diff : List CpuacctUsage) (maxCpus : Nat)
    (is : List Nat) :
    ∀ (v : Nat) (st : AccumState),
      (∀ c ∈ is, (diff.getD c zeroU).user = 0 ∧ (diff.getD c zeroU).system = 0 ∧
        (diff.getD c zeroU).idle = 0) →
      (∀ i, (accumLoop usage diff maxCpus is v st).view.getD i zeroU =
        st.view.getD i zeroU) ∧
      (accumLoop usage diff maxCpus is v st).diff_user = st.diff_user ∧
      (accumLoop usage diff maxCpus is v st).diff_system = st.diff_system ∧
      (accumLoop usage diff maxCpus is v st).diff_idle = st.diff_idle ∧
      (accumLoop usage diff maxCpus is v st).max_diff_idle_index =
        st.max_diff_idle_index := by
  induction is with
  | nil => intro v st _; exact ⟨fun _ => rfl, rfl, rfl, rfl, rfl⟩
  | cons c cs ih =>
    intro v st hd
    have hdc := hd c (List.mem_cons_self c cs)
    have hd' : ∀ c' ∈ cs, (diff.getD c' zeroU).user = 0 ∧
        (diff.getD c' zeroU).system = 0 ∧ (diff.getD c' zeroU).idle = 0 :=
      fun c' hc' => hd c' (List.mem_cons_of_mem c hc')
    have hw : (⟨(st.view.getD c zeroU).user + (diff.getD c zeroU).user,
        (st.view.getD c zeroU).system + (diff.getD c zeroU).system,
        (st.view.getD c zeroU).idle + (diff.getD c zeroU).idle,
        (st.view.getD c zeroU).online⟩ : CpuacctUsage) = st.view.getD c zeroU := by
      refine uext ?_ ?_ ?_ rfl
      · rw [hdc.1, Nat.add_zero]
      · rw [hdc.2.1, Nat.add_zero]
      · rw [hdc.2.2, Nat.add_zero]
    simp only [accumLoop]
    split
    next ho =>
      split
      next hv => exact ⟨fun _ => rfl, rfl, rfl, rfl, rfl⟩
      next hv =>
        obtain ⟨h1, h2, h3, h4, h5⟩ := ih (v + 1) _ hd'
        refine ⟨fun i => (h1 i).trans (getD_set_eqval st.view c i zeroU _ hw), ?_, ?_, ?_, ?_⟩
        · refine h2.trans ?_
          show st.diff_user + (diff.getD c zeroU).user = st.diff_user
          rw [hdc.1]
          exact Nat.add_zero _
        · refine h3.trans ?_
          show st.diff_system + (diff.getD c zeroU).system = st.diff_system
          rw [hdc.2.1]
          exact Nat.add_zero _
        · refine h4.trans ?_
          show st.diff_idle + (diff.getD c zeroU).idle = st.diff_idle
          rw [hdc.2.2]
          exact Nat.add_zero _
        · refine h5.trans ?_
          show (if st.max_diff_idle < (diff.getD c zeroU).idle then c
            else st.max_diff_idle_index) = st.max_diff_idle_index
          rw [hdc.2.2]
          exact if_neg (Nat.not_lt_zero _)
    next ho => exact ih v st hd'


/-- If every view entry below `nprocs` has zero fields, the idle correction
keeps them zero (the corrected index only has its idle saturated). -/
theorem idleCorrection_view_zero (exact_cpus : Int × Int) (maxCpus nprocs : Nat)
    (st : AccumState)
    (hz : ∀ j, j < nprocs → (st.view.getD j zeroU).user = 0 ∧
      (st.view.getD j zeroU).system = 0 ∧ (st.view.getD j zeroU).idle = 0)
    (hk : st.max_diff_idle_index < nprocs) :
    ∀ i, i < nprocs →
      ((idleCorrection exact_cpus maxCpus st).view.getD i zeroU).user = 0 ∧
      ((idleCorrection exact_cpus maxCpus st).view.getD i zeroU).system = 0 ∧
      ((idleCorrection exact_cpus maxCpus st).view.getD i zeroU).idle = 0 := by
  intro i hi
  unfold idleCorrection
  split
  · simp only
    rw [getD_set]
    split
    next hc =>
      refine ⟨(hz _ hk).1, (hz _ hk).2.1, ?_⟩
      show (if _ < (st.view.getD st.max_diff_idle_index zeroU).idle then
        (st.view.getD st.max_diff_idle_index zeroU).idle - _ else 0) = 0
      rw [(hz _ hk).2.2]
      split
      · exact Nat.zero_sub _
      · rfl
    next => exact hz i hi
  · exact hz i hi

/-- C5 (counterexample to the claim as stated, unlimited-quota mode): with
`max_cpus = 0` a reset read overwrites usage and zeroes the view, but then
the unquota path copies the rebased usage (= the sample) into the view, so
the emitted view equals the full sample, not the per-sample delta (which is
zero after the rebase). -/
theorem C5_reset_cex :
    resetTriggered [⟨5, 2, 3, true⟩]
        { usage := [⟨10, 0, 0, true⟩], view := [⟨7, 1, 2, true⟩], cpu_count := 1 } 1 = true ∧
      ((cpuviewUpdate 1 0 1 (0, 1) [⟨5, 2, 3, true⟩]
        { usage := [⟨10, 0, 0, true⟩], view := [⟨7, 1, 2, true⟩],
          cpu_count := 1 }).node.view.getD 0 zeroU).user = 5 ∧
      ((cpuviewDiff 1 [⟨5, 2, 3, true⟩]
        { usage := [⟨10, 0, 0, true⟩], view := [⟨7, 1, 2, true⟩],
          cpu_count := 1 }).getD 0 zeroU).user = 0 ∧
      ¬ ((cpuviewUpdate 1 0 1 (0, 1) [⟨5, 2, 3, true⟩]
          { usage := [⟨10, 0, 0, true⟩], view := [⟨7, 1, 2, true⟩],
            cpu_count := 1 }).node.view.getD 0 zeroU).user =
        ((cpuviewDiff 1 [⟨5, 2, 3, true⟩]
          { usage := [⟨10, 0, 0, true⟩], view := [⟨7, 1, 2, true⟩],
            cpu_count := 1 }).getD 0 zeroU).user := by
  decide

/-- C5 (amended): when the reset branch fires (`sample[first online].user <
usage[first online].user`) and `max_cpus > 0` (quota path), the node's usage
array is overwritten with the sample and every view entry's user, system and
idle are zeroed before deltas are computed, so after the read every usage
entry below `nprocs` equals the sample, every view entry below `nprocs` has
zero user/system/idle, and the read's per-sample delta (`cpuviewDiff`) is
itself zero — the emitted view equals the per-sample delta.  (In the
unlimited-quota path the view instead equals the full rebased sample, see
`C5_reset_cex`.) -/
theorem C5_reset_rebases (nprocs maxCpus cpuCnt : Nat) (exact_cpus : Int × Int)
    (sample : List CpuacctUsage) (node : CgProcStat) (i : Nat)
    (ht : resetTriggered sample node nprocs = true) (hm : 0 < maxCpus)
    (hl : nprocs ≤ node.usage.length) (hv : nprocs ≤ node.view.length)
    (hi : i < nprocs) :
    (cpuviewUpdate nprocs maxCpus cpuCnt exact_cpus sample node).node.usage.getD i zeroU =
        sample.getD i zeroU ∧
      ((cpuviewUpdate nprocs maxCpus cpuCnt exact_cpus sample node).node.view.getD i
        zeroU).user = 0 ∧
      ((cpuviewUpdate nprocs maxCpus cpuCnt exact_cpus sample node).node.view.getD i
        zeroU).system = 0 ∧
      ((cpuviewUpdate nprocs maxCpus cpuCnt exact_cpus sample node).node.view.getD i
        zeroU).idle = 0 ∧
      ((cpuviewDiff nprocs sample node).getD i zeroU).user = 0 ∧
      ((cpuviewDiff nprocs sample node).getD i zeroU).system = 0 ∧
      ((cpuviewDiff nprocs sample node).getD i zeroU).idle = 0 := by
  have hrp : resetPhase node sample nprocs = reset_proc_stat_node node sample nprocs := by
    simp [resetPhase, ht]
  have hNu : ∀ c, c < nprocs →
      (reset_proc_stat_node node sample nprocs).usage.getD c zeroU = sample.getD c zeroU :=
    fun c hc => reset_usage_getD node sample nprocs c hc (lt_of_lt_of_le hc hl)
  have hNv : ∀ c, c < nprocs →
      ((reset_proc_stat_node node sample nprocs).view.getD c zeroU).user = 0 ∧
      ((reset_proc_stat_node node sample nprocs).view.getD c zeroU).system = 0 ∧
      ((reset_proc_stat_node node sample nprocs).view.getD c zeroU).idle = 0 :=
    fun c hc => reset_view_getD node sample nprocs c hc (lt_of_lt_of_le hc hv)
  have hDget : ∀ c, c < nprocs →
      (diff_cpu_usage (reset_proc_stat_node node sample nprocs).usage sample nprocs).1.getD c
          zeroU =
        diffEntry ((reset_proc_stat_node node sample nprocs).usage.getD c zeroU)
          (sample.getD c zeroU) := by
    intro c hc
    simp only [diff_cpu_usage]
    rw [getD_range_map, if_pos hc]
  have hd : ∀ c ∈ List.range nprocs,
      ((diff_cpu_usage (reset_proc_stat_node node sample nprocs).usage sample
          nprocs).1.getD c zeroU).user = 0 ∧
      ((diff_cpu_usage (reset_proc_stat_node node sample nprocs).usage sample
          nprocs).1.getD c zeroU).system = 0 ∧
      ((diff_cpu_usage (reset_proc_stat_node node sample nprocs).usage sample
          nprocs).1.getD c zeroU).idle = 0 := by
    intro c hc
    rw [List.mem_range] at hc
    rw [hDget c hc, hNu c hc]
    exact diffEntry_self _
  obtain ⟨hU1, hU2, hU3⟩ := usageUpdateLoop_zero_diff sample
    (diff_cpu_usage (reset_proc_stat_node node sample nprocs).usage sample nprocs).1 maxCpus
    (List.range nprocs) (reset_proc_stat_node node sample nprocs).usage 0 0 0 hd
    (fun c hc => hNu c (List.mem_range.mp hc))
  have hdiffc : ∀ c, c < nprocs →
      ((cpuviewDiff nprocs sample node).getD c zeroU).user = 0 ∧
      ((cpuviewDiff nprocs sample node).getD c zeroU).system = 0 ∧
      ((cpuviewDiff nprocs sample node).getD c zeroU).idle = 0 := by
    intro c hc
    show ((diff_cpu_usage (resetPhase node sample nprocs).usage sample nprocs).1.getD c
        zeroU).user = 0 ∧
      ((diff_cpu_usage (resetPhase node sample nprocs).usage sample nprocs).1.getD c
        zeroU).system = 0 ∧
      ((diff_cpu_usage (resetPhase node sample nprocs).usage sample nprocs).1.getD c
        zeroU).idle = 0
    rw [hrp]
    exact hd c (List.mem_range.mpr hc)
  simp only [cpuviewUpdate, hrp]
  rw [if_pos hm, hU2, hU3]
  simp only [quotaStep]
  obtain ⟨hR1, hR2, hR3⟩ := redistLoop_zero_surplus
    (usageUpdateLoop sample
      (diff_cpu_usage (reset_proc_stat_node node sample nprocs).usage sample nprocs).1 maxCpus
      (List.range nprocs) (reset_proc_stat_node node sample nprocs).usage 0 0 0).1 maxCpus
    ((diff_cpu_usage (reset_proc_stat_node node sample nprocs).usage sample nprocs).2 /
      cpuCnt * maxCpus)
    (List.range nprocs)
    (diff_cpu_usage (reset_proc_stat_node node sample nprocs).usage sample nprocs).1 0
  obtain ⟨hA1, hA2, hA3, hA4, hA5⟩ := accumLoop_zero_diff
    (usageUpdateLoop sample
      (diff_cpu_usage (reset_proc_stat_node node sample nprocs).usage sample nprocs).1 maxCpus
      (List.range nprocs) (reset_proc_stat_node node sample nprocs).usage 0 0 0).1
    (redistLoop
      (usageUpdateLoop sample
        (diff_cpu_usage (reset_proc_stat_node node sample nprocs).usage sample nprocs).1
        maxCpus (List.range nprocs) (reset_proc_stat_node node sample nprocs).usage 0 0 0).1
      maxCpus
      ((diff_cpu_usage (reset_proc_stat_node node sample nprocs).usage sample nprocs).2 /
        cpuCnt * maxCpus) (List.range nprocs)
      (diff_cpu_usage (reset_proc_stat_node node sample nprocs).usage sample nprocs).1 0 0
      0).1
    maxCpus (List.range nprocs) 0
    { view := (reset_proc_stat_node node sample nprocs).view, user_sum := 0, system_sum := 0,
      idle_sum := 0, diff_user := 0, diff_system := 0, diff_idle := 0, max_diff_idle := 0,
      max_diff_idle_index := 0 }
    (fun c hc => by
      rw [hR3 c]
      exact hd c hc)
  refine ⟨hU1 i (hNu i hi), ?_, ?_, ?_, (hdiffc i hi).1, (hdiffc i hi).2.1,
    (hdiffc i hi).2.2⟩ <;>
  · have hcorr := idleCorrection_view_zero exact_cpus maxCpus nprocs _
      (fun j hj => by
        rw [hA1 j]
        exact hNv j hj)
      (by rw [hA5]; show 0 < nprocs; omega) i hi
    first
      | exact hcorr.1
      | exact hcorr.2.1
      | exact hcorr.2.2


/-- C5 (witness): the amended theorem applied at a concrete reset read in the
quota path. -/
theorem C5_reset_rebases_witness :
    resetTriggered [⟨5, 2, 3, true⟩]
        { usage := [⟨10, 0, 0, true⟩], view := [⟨7, 1, 2, true⟩], cpu_count := 1 } 1 = true ∧
      ((cpuviewUpdate 1 1 1 (1, 1) [⟨5, 2, 3, true⟩]
          { usage := [⟨10, 0, 0, true⟩], view := [⟨7, 1, 2, true⟩],
            cpu_count := 1 }).node.usage.getD 0 zeroU =
          ([⟨5, 2, 3, true⟩] : List CpuacctUsage).getD 0 zeroU ∧
        ((cpuviewUpdate 1 1 1 (1, 1) [⟨5, 2, 3, true⟩]
          { usage := [⟨10, 0, 0, true⟩], view := [⟨7, 1, 2, true⟩],
            cpu_count := 1 }).node.view.getD 0 zeroU).user = 0 ∧
        ((cpuviewUpdate 1 1 1 (1, 1) [⟨5, 2, 3, true⟩]
          { usage := [⟨10, 0, 0, true⟩], view := [⟨7, 1, 2, true⟩],
            cpu_count := 1 }).node.view.getD 0 zeroU).system = 0 ∧
        ((cpuviewUpdate 1 1 1 (1, 1) [⟨5, 2, 3, true⟩]
          { usage := [⟨10, 0, 0, true⟩], view := [⟨7, 1, 2, true⟩],
            cpu_count := 1 }).node.view.getD 0 zeroU).idle = 0 ∧
        ((cpuviewDiff 1 [⟨5, 2, 3, true⟩]
          { usage := [⟨10, 0, 0, true⟩], view := [⟨7, 1, 2, true⟩],
            cpu_count := 1 }).getD 0 zeroU).user = 0 ∧
        ((cpuviewDiff 1 [⟨5, 2, 3, true⟩]
          { usage := [⟨10, 0, 0, true⟩], view := [⟨7, 1, 2, true⟩],
            cpu_count := 1 }).getD 0 zeroU).system = 0 ∧
        ((cpuviewDiff 1 [⟨5, 2, 3, true⟩]
          { usage := [⟨10, 0, 0, true⟩], view := [⟨7, 1, 2, true⟩],
            cpu_count := 1 }).getD 0 zeroU).idle = 0) :=
  ⟨by decide,
    C5_reset_rebases 1 1 1 (1, 1) [⟨5, 2, 3, true⟩]
      { usage := [⟨10, 0, 0, true⟩], view := [⟨7, 1, 2, true⟩], cpu_count := 1 } 0
      (by decide) (by decide) (by decide) (by decide) (by decide)⟩


/-! Claim C6. -/

theorem userSum_cons (a : CpuacctUsage) (t : List CpuacctUsage) :
    userSum (a :: t) = a.user + userSum t := by
  simp [userSum]

theorem sysSum_cons (a : CpuacctUsage) (t : List CpuacctUsage) :
    sysSum (a :: t) = a.system + sysSum t := by
  simp [sysSum]

theorem userSum_set : ∀ (l : List CpuacctUsage) (c : Nat) (x : CpuacctUsage),
    c < l.length →
    userSum (l.set c x) + (l.getD c zeroU).user = userSum l + x.user
  | [], c, x, h => absurd h (by simp)
  | a :: t, 0, x, _ => by
    show userSum (x :: t) + a.user = userSum (a :: t) + x.user
    rw [userSum_cons, userSum_cons]
    omega
  | a :: t, c + 1, x, h => by
    show userSum (a :: t.set c x) + (t.getD c zeroU).user = userSum (a :: t) + x.user
    rw [userSum_cons, userSum_cons]
    have := userSum_set t c x (by simpa using h)
    omega

theorem sysSum_set : ∀ (l : List CpuacctUsage) (c : Nat) (x : CpuacctUsage),
    c < l.length →
    sysSum (l.set c x) + (l.getD c zeroU).system = sysSum l + x.system
  | [], c, x, h => absurd h (by simp)
  | a :: t, 0, x, _ => by
    show sysSum (x :: t) + a.system = sysSum (a :: t) + x.system
    rw [sysSum_cons, sysSum_cons]
    omega
  | a :: t, c + 1, x, h => by
    show sysSum (a :: t.set c x) + (t.getD c zeroU).system = sysSum (a :: t) + x.system
    rw [sysSum_cons, sysSum_cons]
    have := sysSum_set t c x (by simpa using h)
    omega

/-- The credited amount of `add_cpu_usage` into the user counter, existentially:
it is taken from the pool, added to user, and the other fields behave as in
the source. -/
theorem add_cpu_usage_ex_user (surplus : Nat) (u : CpuacctUsage) (thr : Nat) :
    ∃ m, m ≤ surplus ∧ (add_cpu_usage surplus u .user thr).1 = surplus - m ∧
      (add_cpu_usage surplus u .user thr).2.user = u.user + m ∧
      (add_cpu_usage surplus u .user thr).2.system = u.system := by
  refine ⟨if surplus < (if u.idle < thr - u.user - u.system then u.idle
      else thr - u.user - u.system) then surplus
    else (if u.idle < thr - u.user - u.system then u.idle else thr - u.user - u.system),
    ?_, rfl, rfl, rfl⟩
  split <;> (try split) <;> omega

/-- Same for the system counter. -/
theorem add_cpu_usage_ex_system (surplus : Nat) (u : CpuacctUsage) (thr : Nat) :
    ∃ m, m ≤ surplus ∧ (add_cpu_usage surplus u .system thr).1 = surplus - m ∧
      (add_cpu_usage surplus u .system thr).2.user = u.user ∧
      (add_cpu_usage surplus u .system thr).2.system = u.system + m := by
  refine ⟨if surplus < (if u.idle < thr - u.user - u.system then u.idle
      else thr - u.user - u.system) then surplus
    else (if u.idle < thr - u.user - u.system then u.idle else thr - u.user - u.system),
    ?_, rfl, rfl, rfl⟩
  split <;> (try split) <;> omega

/-- Conservation through the redistribution loop: the pools never increase,
and the credited user/system totals in the diff array account exactly for
what left the pools. -/
theorem redistLoop_conserve (usage : List CpuacctUsage) (maxCpus thr : Nat)
    (is : List Nat) :
    ∀ (diff : List CpuacctUsage) (v us ss : Nat),
      (∀ c ∈ is, c < diff.length) →
      (redistLoop usage maxCpus thr is diff v us ss).2.1 ≤ us ∧
      (redistLoop usage maxCpus thr is diff v us ss).2.2 ≤ ss ∧
      userSum (redistLoop usage maxCpus thr is diff v us ss).1 +
        (redistLoop usage maxCpus thr is diff v us ss).2.1 = userSum diff + us ∧
      sysSum (redistLoop usage maxCpus thr is diff v us ss).1 +
        (redistLoop usage maxCpus thr is diff v us ss).2.2 = sysSum diff + ss := by
  induction is with
  | nil => intro diff v us ss _; exact ⟨le_rfl, le_rfl, rfl, rfl⟩
  | cons c cs ih =>
    intro diff v us ss hlen
    have hc := hlen c (List.mem_cons_self c cs)
    have hlen' : ∀ c' ∈ cs, c' < diff.length :=
      fun c' h' => hlen c' (List.mem_cons_of_mem c h')
    simp only [redistLoop]
    split
    next ho =>
      split
      next hv => exact ⟨le_rfl, le_rfl, rfl, rfl⟩
      next hv =>
        split
        next hth => exact ih diff (v + 1) us ss hlen'
        next hth =>
          obtain ⟨m1, hm1, ha1, ha2u, ha2s⟩ :=
            add_cpu_usage_ex_user us (diff.getD c zeroU) thr
          split
          next hth2 =>
            obtain ⟨g1, g2, g3, g4⟩ := ih
              (diff.set c (add_cpu_usage us (diff.getD c zeroU) SurplusKind.user thr).2)
              (v + 1) (add_cpu_usage us (diff.getD c zeroU) SurplusKind.user thr).1 ss
              (fun c' h' => by rw [List.length_set]; exact hlen' c' h')
            have hus := userSum_set diff c
              (add_cpu_usage us (diff.getD c zeroU) SurplusKind.user thr).2 hc
            have hss := sysSum_set diff c
              (add_cpu_usage us (diff.getD c zeroU) SurplusKind.user thr).2 hc
            exact ⟨by omega, g2, by omega, by omega⟩
          next hth2 =>
            obtain ⟨m2, hm2, hb1, hb2u, hb2s⟩ := add_cpu_usage_ex_system ss
              (add_cpu_usage us (diff.getD c zeroU) SurplusKind.user thr).2 thr
            obtain ⟨g1, g2, g3, g4⟩ := ih
              (diff.set c (add_cpu_usage ss
                (add_cpu_usage us (diff.getD c zeroU) SurplusKind.user thr).2
                SurplusKind.system thr).2)
              (v + 1) (add_cpu_usage us (diff.getD c zeroU) SurplusKind.user thr).1
              (add_cpu_usage ss
                (add_cpu_usage us (diff.getD c zeroU) SurplusKind.user thr).2
                SurplusKind.system thr).1
              (fun c' h' => by rw [List.length_set]; exact hlen' c' h')
            have hus := userSum_set diff c
              (add_cpu_usage ss
                (add_cpu_usage us (diff.getD c zeroU) SurplusKind.user thr).2
                SurplusKind.system thr).2 hc
            have hss := sysSum_set diff c
              (add_cpu_usage ss
                (add_cpu_usage us (diff.getD c zeroU) SurplusKind.user thr).2
                SurplusKind.system thr).2 hc
            exact ⟨by omega, by omega, by omega, by omega⟩
    next ho => exact ih diff v us ss hlen'


/-- C6: during surplus redistribution, for a CPU whose user+system delta is
below `threshold`, `add_cpu_usage` credits exactly
`min(pool, threshold − user − system, idle)` ticks: they are added to the
chosen counter and subtracted from both the pool and the idle delta (first
conjunct, for both counters).  Consequently, over the whole redistribution
loop each pool never increases and the total ticks credited into the diff
array equal what left the pools, so they never exceed the initial pools
(second conjunct). -/
theorem C6_surplus_conservation :
    (∀ (surplus : Nat) (u : CpuacctUsage) (thr : Nat), u.user + u.system < thr →
      add_cpu_usage surplus u .user thr =
        (surplus - min surplus (min (thr - u.user - u.system) u.idle),
         ⟨u.user + min surplus (min (thr - u.user - u.system) u.idle), u.system,
          u.idle - min surplus (min (thr - u.user - u.system) u.idle), u.online⟩) ∧
      add_cpu_usage surplus u .system thr =
        (surplus - min surplus (min (thr - u.user - u.system) u.idle),
         ⟨u.user, u.system + min surplus (min (thr - u.user - u.system) u.idle),
          u.idle - min surplus (min (thr - u.user - u.system) u.idle), u.online⟩)) ∧
    (∀ (usage : List CpuacctUsage) (maxCpus thr : Nat) (is : List Nat)
      (diff : List CpuacctUsage) (v us ss : Nat),
      (∀ c ∈ is, c < diff.length) →
      (redistLoop usage maxCpus thr is diff v us ss).2.1 ≤ us ∧
      (redistLoop usage maxCpus thr is diff v us ss).2.2 ≤ ss ∧
      userSum (redistLoop usage maxCpus thr is diff v us ss).1 +
        (redistLoop usage maxCpus thr is diff v us ss).2.1 = userSum diff + us ∧
      sysSum (redistLoop usage maxCpus thr is diff v us ss).1 +
        (redistLoop usage maxCpus thr is diff v us ss).2.2 = sysSum diff + ss) := by
  constructor
  · intro surplus u thr _
    have h1 : (if u.idle < thr - u.user - u.system then u.idle
        else thr - u.user - u.system) = min (thr - u.user - u.system) u.idle := by
      split <;> omega
    have h2 : (if surplus < min (thr - u.user - u.system) u.idle then surplus
        else min (thr - u.user - u.system) u.idle) =
        min surplus (min (thr - u.user - u.system) u.idle) := by
      split <;> omega
    constructor
    · simp only [add_cpu_usage]
      rw [h1, h2]
    · simp only [add_cpu_usage]
      rw [h1, h2]
  · exact fun usage maxCpus thr is diff v us ss h =>
      redistLoop_conserve usage maxCpus thr is diff v us ss h

/-- C6 (witness): the credit formula and the loop conservation at concrete
inputs (pool 10, headroom 8, idle 5 → credit 5; a one-CPU loop with pools
(2, 0) crediting both into the diff entry). -/
theorem C6_surplus_conservation_witness :
    add_cpu_usage 10 ⟨1, 1, 5, true⟩ .user 10 = (5, ⟨6, 1, 0, true⟩) ∧
      ((redistLoop [⟨0, 0, 0, true⟩] 1 10 [0] [⟨1, 1, 3, true⟩] 0 2 0).2.1 ≤ 2 ∧
        (redistLoop [⟨0, 0, 0, true⟩] 1 10 [0] [⟨1, 1, 3, true⟩] 0 2 0).2.2 ≤ 0 ∧
        userSum (redistLoop [⟨0, 0, 0, true⟩] 1 10 [0] [⟨1, 1, 3, true⟩] 0 2 0).1 +
          (redistLoop [⟨0, 0, 0, true⟩] 1 10 [0] [⟨1, 1, 3, true⟩] 0 2 0).2.1 =
          userSum [⟨1, 1, 3, true⟩] + 2 ∧
        sysSum (redistLoop [⟨0, 0, 0, true⟩] 1 10 [0] [⟨1, 1, 3, true⟩] 0 2 0).1 +
          (redistLoop [⟨0, 0, 0, true⟩] 1 10 [0] [⟨1, 1, 3, true⟩] 0 2 0).2.2 =
          sysSum [⟨1, 1, 3, true⟩] + 0) :=
  ⟨((C6_surplus_conservation.1 10 ⟨1, 1, 5, true⟩ 10 (by decide)).1).trans (by decide),
    C6_surplus_conservation.2 [⟨0, 0, 0, true⟩] 1 10 [0] [⟨1, 1, 3, true⟩] 0 2 0
      (by decide)⟩


/-! Claim C7. -/

theorem usageUpdateLoop_length (sample diff : List CpuacctUsage) (maxCpus : Nat) :
    ∀ (is : List Nat) (usage : List CpuacctUsage) (v us ss : Nat),
      (usageUpdateLoop sample diff maxCpus is usage v us ss).1.length = usage.length
  | [], _, _, _, _ => rfl
  | c :: cs, usage, v, us, ss => by
    simp only [usageUpdateLoop]
    split
    · split
      · rw [usageUpdateLoop_length sample diff maxCpus cs, List.length_set]
      · rw [usageUpdateLoop_length sample diff maxCpus cs, List.length_set]
    · rw [usageUpdateLoop_length sample diff maxCpus cs, List.length_set]

theorem accumLoop_view_length (usage diff : List CpuacctUsage) (maxCpus : Nat) :
    ∀ (is : List Nat) (v : Nat) (st : AccumState),
      (accumLoop usage diff maxCpus is v st).view.length = st.view.length
  | [], _, _ => rfl
  | c :: cs, v, st => by
    simp only [accumLoop]
    split
    · split
      · rfl
      · rw [accumLoop_view_length usage diff maxCpus cs]
        exact List.length_set _ _ _
    · exact accumLoop_view_length usage diff maxCpus cs v st

theorem idleCorrection_view_length (exact_cpus : Int × Int) (maxCpus : Nat)
    (st : AccumState) :
    (idleCorrection exact_cpus maxCpus st).view.length = st.view.length := by
  unfold idleCorrection
  split
  · exact List.length_set _ _ _
  · rfl

theorem unquotaLoop_view_length (usage : List CpuacctUsage) :
    ∀ (is : List Nat) (view : List CpuacctUsage) (us ss ids : Nat),
      (unquotaLoop usage is view us ss ids).1.length = view.length
  | [], _, _, _, _ => rfl
  | c :: cs, view, us, ss, ids => by
    simp only [unquotaLoop]
    split
    · rw [unquotaLoop_view_length usage cs]
      exact List.length_set _ _ _
    · exact unquotaLoop_view_length usage cs view us ss ids

theorem resetPhase_lengths (node : CgProcStat) (sample : List CpuacctUsage) (np : Nat) :
    (resetPhase node sample np).usage.length = node.usage.length ∧
      (resetPhase node sample np).view.length = node.view.length := by
  unfold resetPhase
  split
  · simp [reset_proc_stat_node]
  · exact ⟨rfl, rfl⟩

theorem cpuviewUpdate_lengths (nprocs maxCpus cpuCnt : Nat) (exact_cpus : Int × Int)
    (sample : List CpuacctUsage) (node : CgProcStat) :
    (cpuviewUpdate nprocs maxCpus cpuCnt exact_cpus sample node).node.usage.length =
        node.usage.length ∧
      (cpuviewUpdate nprocs maxCpus cpuCnt exact_cpus sample node).node.view.length =
        node.view.length := by
  simp only [cpuviewUpdate]
  split
  · constructor
    · show (usageUpdateLoop _ _ _ _ _ _ _ _).1.length = node.usage.length
      rw [usageUpdateLoop_length]
      exact (resetPhase_lengths node sample nprocs).1
    · show (quotaStep _ _ _ _ _ _ _ _ _).1.length = node.view.length
      simp only [quotaStep]
      rw [idleCorrection_view_length, accumLoop_view_length]
      exact (resetPhase_lengths node sample nprocs).2
  · constructor
    · show (usageUpdateLoop _ _ _ _ _ _ _ _).1.length = node.usage.length
      rw [usageUpdateLoop_length]
      exact (resetPhase_lengths node sample nprocs).1
    · show (unquotaLoop _ _ _ _ _ _).1.length = node.view.length
      rw [unquotaLoop_view_length]
      exact (resetPhase_lengths node sample nprocs).2

/-- C7: `expand_proc_stat_node` from `n = node.cpu_count` to `m > n` keeps
the user/system/idle of entries `0..n−1` of both arrays exactly, zeroes
entries `n..m−1`, sets `cpu_count` (and both array lengths) to `m` — so the
arrays grow; moreover no other operation shrinks the node arrays: a reset
and a whole `cpuviewUpdate` read preserve both array lengths exactly, and a
successful `find_or_create_proc_stat_node` on a well-formed node (array
lengths = `cpu_count`) never returns shorter arrays. -/
theorem C7_expand_preserves (node : CgProcStat) (m : Nat) (hm : node.cpu_count < m)
    (i : Nat) :
    (i < node.cpu_count →
      ((expand_proc_stat_node node m).usage.getD i zeroU).user =
          (node.usage.getD i zeroU).user ∧
        ((expand_proc_stat_node node m).usage.getD i zeroU).system =
          (node.usage.getD i zeroU).system ∧
        ((expand_proc_stat_node node m).usage.getD i zeroU).idle =
          (node.usage.getD i zeroU).idle ∧
        ((expand_proc_stat_node node m).view.getD i zeroU).user =
          (node.view.getD i zeroU).user ∧
        ((expand_proc_stat_node node m).view.getD i zeroU).system =
          (node.view.getD i zeroU).system ∧
        ((expand_proc_stat_node node m).view.getD i zeroU).idle =
          (node.view.getD i zeroU).idle) ∧
      (node.cpu_count ≤ i → i < m →
        (expand_proc_stat_node node m).usage.getD i zeroU = zeroU ∧
        (expand_proc_stat_node node m).view.getD i zeroU = zeroU) ∧
      (expand_proc_stat_node node m).cpu_count = m ∧
      (expand_proc_stat_node node m).usage.length = m ∧
      (expand_proc_stat_node node m).view.length = m ∧
      (∀ (nd : CgProcStat) (s : List CpuacctUsage) (k : Nat),
        (reset_proc_stat_node nd s k).usage.length = nd.usage.length ∧
        (reset_proc_stat_node nd s k).view.length = nd.view.length) ∧
      (∀ (np mx cc : Nat) (e : Int × Int) (s : List CpuacctUsage) (nd : CgProcStat),
        (cpuviewUpdate np mx cc e s nd).node.usage.length = nd.usage.length ∧
        (cpuviewUpdate np mx cc e s nd).node.view.length = nd.view.length) ∧
      (∀ (s : List CpuacctUsage) (np : Nat) (co eo : Bool) (nd2 : CgProcStat),
        node.usage.length = node.cpu_count → node.view.length = node.cpu_count →
        find_or_create_proc_stat_node (some node) s np co eo = some nd2 →
        node.usage.length ≤ nd2.usage.length ∧
          node.view.length ≤ nd2.view.length) := by
  refine ⟨?_, ?_, rfl, by simp [expand_proc_stat_node], by simp [expand_proc_stat_node],
    fun nd s k => ⟨by simp [reset_proc_stat_node], by simp [reset_proc_stat_node]⟩,
    fun np mx cc e s nd => cpuviewUpdate_lengths np mx cc e s nd, ?_⟩
  · intro hi
    simp only [expand_proc_stat_node]
    rw [getD_range_map, getD_range_map, if_pos (hi.trans hm), if_pos (hi.trans hm),
      if_pos hi, if_pos hi]
    exact ⟨rfl, rfl, rfl, rfl, rfl, rfl⟩
  · intro hi1 hi2
    simp only [expand_proc_stat_node]
    rw [getD_range_map, getD_range_map, if_pos hi2, if_pos hi2,
      if_neg (not_lt.mpr hi1), if_neg (not_lt.mpr hi1)]
    exact ⟨rfl, rfl⟩
  · intro s np co eo nd2 hw1 hw2 hfc
    simp only [find_or_create_proc_stat_node] at hfc
    by_cases hlt : node.cpu_count < np
    · rw [if_pos hlt] at hfc
      rcases eo with _ | _
      · simp at hfc
      · simp only [if_pos rfl] at hfc
        cases hfc
        constructor
        · rw [hw1]
          simp [expand_proc_stat_node]
          omega
        · rw [hw2]
          simp [expand_proc_stat_node]
          omega
    · rw [if_neg hlt] at hfc
      cases hfc
      exact ⟨le_rfl, le_rfl⟩

/-- C7 (witness): expanding a concrete one-CPU node to two CPUs preserves
entry 0 and sets `cpu_count` to 2. -/
theorem C7_expand_preserves_witness :
    ((expand_proc_stat_node
        { usage := [⟨4, 5, 6, true⟩], view := [⟨1, 2, 3, true⟩], cpu_count := 1 }
        2).usage.getD 0 zeroU).user = 4 ∧
      (expand_proc_stat_node
        { usage := [⟨4, 5, 6, true⟩], view := [⟨1, 2, 3, true⟩], cpu_count := 1 }
        2).cpu_count = 2 :=
  ⟨(((C7_expand_preserves
      { usage := [⟨4, 5, 6, true⟩], view := [⟨1, 2, 3, true⟩], cpu_count := 1 } 2
      (by decide) 0).1 (by decide)).1).trans (by decide),
    (C7_expand_preserves
      { usage := [⟨4, 5, 6, true⟩], view := [⟨1, 2, 3, true⟩], cpu_count := 1 } 2
      (by decide) 0).2.2.1⟩


/-! Claim C8. -/

theorem setOffline_getD_ne (smp : List CpuacctUsage) {i j : Nat} (h : i ≠ j) :
    (setOffline smp i).getD j zeroU = smp.getD j zeroU := by
  unfold setOffline
  exact getD_set_ne _ h _ _

theorem setOfflineAll_getD (is : List Nat) :
    ∀ (smp : List CpuacctUsage) (j : Nat), (∀ i ∈ is, i ≠ j) →
      (setOfflineAll smp is).getD j zeroU = smp.getD j zeroU := by
  induction is with
  | nil => intro smp j _; rfl
  | cons i is' ih =>
    intro smp j h
    show (setOfflineAll (setOffline smp i) is').getD j zeroU = smp.getD j zeroU
    rw [ih (setOffline smp i) j (fun i' hi' => h i' (List.mem_cons_of_mem i hi'))]
    exact setOffline_getD_ne smp (h i (List.mem_cons_self i is'))

theorem setOfflineAll_length (is : List Nat) :
    ∀ (smp : List CpuacctUsage), (setOfflineAll smp is).length = smp.length := by
  induction is with
  | nil => intro smp; rfl
  | cons i is' ih =>
    intro smp
    show (setOfflineAll (setOffline smp i) is').length = smp.length
    rw [ih (setOffline smp i)]
    exact List.length_set _ _ _

theorem setOffline_us (smp : List CpuacctUsage) (i j : Nat) :
    ((setOffline smp i).getD j zeroU).user = (smp.getD j zeroU).user ∧
      ((setOffline smp i).getD j zeroU).system = (smp.getD j zeroU).system := by
  unfold setOffline
  rw [getD_set]
  split
  next h => rw [← h.1]; exact ⟨rfl, rfl⟩
  next => exact ⟨rfl, rfl⟩

theorem setOfflineAll_us (is : List Nat) :
    ∀ (smp : List CpuacctUsage) (j : Nat),
      ((setOfflineAll smp is).getD j zeroU).user = (smp.getD j zeroU).user ∧
      ((setOfflineAll smp is).getD j zeroU).system = (smp.getD j zeroU).system := by
  induction is with
  | nil => intro smp j; exact ⟨rfl, rfl⟩
  | cons i is' ih =>
    intro smp j
    show ((setOfflineAll (setOffline smp i) is').getD j zeroU).user = _ ∧ _
    obtain ⟨h1, h2⟩ := ih (setOffline smp i) j
    obtain ⟨h3, h4⟩ := setOffline_us smp i j
    exact ⟨h1.trans h3, h2.trans h4⟩

/-- The parsing loop never alters the user or system fields of the sample. -/
theorem cpuviewParseGo_us (size : Nat) (inSet : Nat → Bool) :
    ∀ (lines : List HostLine) (cur cnt : Nat) (smp : List CpuacctUsage) (tr : List Nat)
      (lr : String) (j : Nat),
      ((cpuviewParseGo size inSet lines cur cnt smp tr lr).sample.getD j zeroU).user =
        (smp.getD j zeroU).user ∧
      ((cpuviewParseGo size inSet lines cur cnt smp tr lr).sample.getD j zeroU).system =
        (smp.getD j zeroU).system
  | [], _, _, _, _, _, _ => ⟨rfl, rfl⟩
  | HostLine.otherLn r :: rest, _, _, _, _, _, _ => ⟨rfl, rfl⟩
  | HostLine.cpuLn r n u ni sy idl io irq so st g gn :: rest, cur, cnt, smp, tr, lr, j => by
    simp only [cpuviewParseGo]
    split
    next => exact cpuviewParseGo_us size inSet rest cur cnt smp tr r j
    next hn =>
      split
      next hs =>
        obtain ⟨h1, h2⟩ := cpuviewParseGo_us size inSet rest (cur + 1) (cnt + 1)
          (setOfflineAll smp (List.range' cur (n + 1 - cur))) (tr ++ List.range' cur (n + 1 - cur)) r j
        obtain ⟨h3, h4⟩ := setOfflineAll_us (List.range' cur (n + 1 - cur)) smp j
        exact ⟨h1.trans h3, h2.trans h4⟩
      next hs =>
        have hset : ∀ (cidx idle2 : Nat) (onl : Bool),
            (((setOfflineAll smp (List.range' cur (n - cur))).set cidx
              ⟨((setOfflineAll smp (List.range' cur (n - cur))).getD cidx zeroU).user,
               ((setOfflineAll smp (List.range' cur (n - cur))).getD cidx zeroU).system,
               idle2, onl⟩).getD j zeroU).user = (smp.getD j zeroU).user ∧
            (((setOfflineAll smp (List.range' cur (n - cur))).set cidx
              ⟨((setOfflineAll smp (List.range' cur (n - cur))).getD cidx zeroU).user,
               ((setOfflineAll smp (List.range' cur (n - cur))).getD cidx zeroU).system,
               idle2, onl⟩).getD j zeroU).system = (smp.getD j zeroU).system := by
          intro cidx idle2 onl
          obtain ⟨h3, h4⟩ := setOfflineAll_us (List.range' cur (n - cur)) smp j
          rw [getD_set]
          split
          next hc =>
            constructor
            · show ((setOfflineAll smp (List.range' cur (n - cur))).getD cidx zeroU).user =
                (smp.getD j zeroU).user
              rw [hc.1]
              exact h3
            · show ((setOfflineAll smp
                (List.range' cur (n - cur))).getD cidx zeroU).system =
                (smp.getD j zeroU).system
              rw [hc.1]
              exact h4
          next => exact ⟨h3, h4⟩
        obtain ⟨h1, h2⟩ := cpuviewParseGo_us size inSet rest
          ((if cur < n then n else cur) + 1) (cnt + 1) _ _ r j
        exact ⟨h1.trans (hset _ _ _).1, h2.trans (hset _ _ _).2⟩

/-- The parsing loop never touches sample entries below the current cursor. -/
theorem cpuviewParseGo_lt_cur (size : Nat) (inSet : Nat → Bool) :
    ∀ (lines : List HostLine) (cur cnt : Nat) (smp : List CpuacctUsage) (tr : List Nat)
      (lr : String) (j : Nat), j < cur →
      (cpuviewParseGo size inSet lines cur cnt smp tr lr).sample.getD j zeroU =
        smp.getD j zeroU
  | [], _, _, _, _, _, _, _ => rfl
  | HostLine.otherLn r :: rest, _, _, _, _, _, _, _ => rfl
  | HostLine.cpuLn r n u ni sy idl io irq so st g gn :: rest, cur, cnt, smp, tr, lr, j,
      hj => by
    simp only [cpuviewParseGo]
    split
    next => exact cpuviewParseGo_lt_cur size inSet rest cur cnt smp tr r j hj
    next hn =>
      split
      next hs =>
        rw [cpuviewParseGo_lt_cur size inSet rest (cur + 1) (cnt + 1) _ _ r j
          (by omega)]
        exact setOfflineAll_getD (List.range' cur (n + 1 - cur)) smp j
          (fun i hi => by rw [List.mem_range'_1] at hi; omega)
      next hs =>
        have hcge : cur ≤ (if cur < n then n else cur) := by split <;> omega
        rw [cpuviewParseGo_lt_cur size inSet rest ((if cur < n then n else cur) + 1)
          (cnt + 1) _ _ r j (by omega)]
        rw [getD_set_ne _ (by omega) _ _]
        exact setOfflineAll_getD (List.range' cur (n - cur)) smp j
          (fun i hi => by rw [List.mem_range'_1] at hi; omega)


/-- C8: for a host `cpuN` line whose CPU is in the cpuset (and below
`cg_cpu_usage_size`), processed while the cursor has not passed `N` (as is
the case for every real /proc/stat, whose cpu numbers increase), the engine
sets that sample entry's idle to host idle plus `host_busy − cg_busy` when
`host_busy ≥ cg_busy` — `host_busy` being the sum of the nine busy fields of
the line and `cg_busy` the sample's user plus system — and to the raw host
idle value otherwise; user and system are exactly the sample's (first
conjunct: the parse loop never alters user/system), and the entry is marked
online. -/
theorem C8_idle_imputation (size : Nat) (inSet : Nat → Bool) (r : String)
    (n u ni sy idl io irq so st g gn : Nat) (rest : List HostLine)
    (cur cnt : Nat) (smp : List CpuacctUsage) (tr : List Nat) (lr : String)
    (hcur : cur ≤ n) (hn : n < size) (hin : inSet n = true) (hlen : n < smp.length) :
    (∀ (lines : List HostLine) (cur2 cnt2 : Nat) (smp2 : List CpuacctUsage)
      (tr2 : List Nat) (lr2 : String) (j : Nat),
      ((cpuviewParseGo size inSet lines cur2 cnt2 smp2 tr2 lr2).sample.getD j
          zeroU).user = (smp2.getD j zeroU).user ∧
      ((cpuviewParseGo size inSet lines cur2 cnt2 smp2 tr2 lr2).sample.getD j
          zeroU).system = (smp2.getD j zeroU).system) ∧
    (cpuviewParseGo size inSet
        (HostLine.cpuLn r n u ni sy idl io irq so st g gn :: rest) cur cnt smp tr
        lr).sample.getD n zeroU =
      ⟨(smp.getD n zeroU).user, (smp.getD n zeroU).system,
        (if (smp.getD n zeroU).user + (smp.getD n zeroU).system ≤
            u + ni + sy + io + irq + so + st + g + gn
         then idl + (u + ni + sy + io + irq + so + st + g + gn -
            ((smp.getD n zeroU).user + (smp.getD n zeroU).system))
         else idl), true⟩ := by
  refine ⟨fun lines cur2 cnt2 smp2 tr2 lr2 j =>
    cpuviewParseGo_us size inSet lines cur2 cnt2 smp2 tr2 lr2 j, ?_⟩
  have hc : (if cur < n then n else cur) = n := by split <;> omega
  have hsm : (setOfflineAll smp (List.range' cur (n - cur))).getD n zeroU =
      smp.getD n zeroU :=
    setOfflineAll_getD (List.range' cur (n - cur)) smp n
      (fun i hi => by rw [List.mem_range'_1] at hi; omega)
  simp only [cpuviewParseGo]
  rw [if_neg (not_le.mpr hn), if_neg (by simp [hin]), hc]
  rw [cpuviewParseGo_lt_cur size inSet rest (n + 1) (cnt + 1) _ _ r n (Nat.lt_succ_self n)]
  rw [getD_set, if_pos ⟨rfl, by rw [setOfflineAll_length]; exact hlen⟩, hsm]

/-- C8 (witness): the theorem applied at a concrete line `cpu0 7 1 1 9 ...`
against a sample with user 3, system 2: `host_busy = 10 ≥ 5 = cg_busy`, so
idle becomes `9 + 5 = 14`. -/
theorem C8_idle_imputation_witness :
    (cpuviewParse 1 (fun _ => true) [⟨3, 2, 0, false⟩]
        [HostLine.cpuLn "cpu0 7 1 1 9 1 0 0 0 0 0\n" 0 7 1 1 9 1 0 0 0 0 0]).sample.getD 0
        zeroU =
      ⟨3, 2, 14, true⟩ :=
  ((C8_idle_imputation 1 (fun _ => true) "cpu0 7 1 1 9 1 0 0 0 0 0\n"
      0 7 1 1 9 1 0 0 0 0 0 [] 0 0 [⟨3, 2, 0, false⟩] [] ""
      (by decide) (by decide) (by decide) (by decide)).2).trans (by decide)


/-! Claim C10. -/

/-- With strictly increasing `cpuN` numbers, every `cg_cpu_usage` access of
the parsing loop stays below `size`, provided the cursor is below the next
cpu number. -/
theorem parse_trace_inbounds (size : Nat) (inSet : Nat → Bool) :
    ∀ (lines : List HostLine) (cur cnt : Nat) (smp : List CpuacctUsage) (tr : List Nat)
      (lr : String),
      List.Pairwise (· < ·) (cpuNums lines) →
      (∀ m, (cpuNums lines).head? = some m → cur ≤ m) →
      (∀ t ∈ tr, t < size) →
      ∀ t ∈ (cpuviewParseGo size inSet lines cur cnt smp tr lr).tr, t < size
  | [], _, _, _, _, _, _, _, htr => htr
  | HostLine.otherLn r :: rest, _, _, _, _, _, _, _, htr => htr
  | HostLine.cpuLn r n u ni sy idl io irq so st g gn :: rest, cur, cnt, smp, tr, lr,
      hinc, hhead, htr => by
    have hcn : cpuNums (HostLine.cpuLn r n u ni sy idl io irq so st g gn :: rest) =
        n :: cpuNums rest := rfl
    rw [hcn] at hinc hhead
    have hcur : cur ≤ n := hhead n rfl
    obtain ⟨hlt, hinc'⟩ := List.pairwise_cons.mp hinc
    have hhead' : ∀ m, (cpuNums rest).head? = some m → n + 1 ≤ m := by
      intro m hm
      have := hlt m (List.mem_of_mem_head? hm)
      omega
    simp only [cpuviewParseGo]
    split
    next hn =>
      exact parse_trace_inbounds size inSet rest cur cnt smp tr r hinc'
        (fun m hm => by have := hhead' m hm; omega) htr
    next hn =>
      split
      next hs =>
        refine parse_trace_inbounds size inSet rest (cur + 1) (cnt + 1) _ _ r hinc'
          (fun m hm => by have := hhead' m hm; omega) ?_
        intro t ht
        rcases List.mem_append.mp ht with h | h
        · exact htr t h
        · rw [List.mem_range'_1] at h
          omega
      next hs =>
        have hc : (if cur < n then n else cur) = n := by split <;> omega
        rw [hc]
        refine parse_trace_inbounds size inSet rest (n + 1) (cnt + 1) _ _ r hinc'
          hhead' ?_
        intro t ht
        rcases List.mem_append.mp ht with h | h
        · rcases List.mem_append.mp h with h2 | h2
          · exact htr t h2
          · rw [List.mem_range'_1] at h2
            omega
        · rw [List.mem_singleton] at h
          omega

/-- C10 (counterexample to the claim as stated): with a malformed host table
whose cpu numbers decrease (`cpu1` then `cpu0`) and `cg_cpu_usage_size = 2`,
the parsing loop accesses `cg_cpu_usage[2]` — `curcpu` has already advanced
past the second line's number, so the `physcpu >= cg_cpu_usage_size` skip
does not protect the `cg_cpu_usage[curcpu]` accesses. -/
theorem C10_parse_inbounds_cex :
    ((cpuviewParse 2 (fun _ => true) [zeroU, zeroU]
      [HostLine.cpuLn "cpu1 0 0 0 0 0 0 0 0 0 0\n" 1 0 0 0 0 0 0 0 0 0 0,
        HostLine.cpuLn "cpu0 0 0 0 0 0 0 0 0 0 0\n" 0 0 0 0 0 0 0 0 0 0 0]).tr.any
      (fun t => 2 ≤ t)) = true := by
  decide

/-- C10 (amended): provided the host `cpuN` lines carry strictly increasing
CPU numbers (as every real /proc/stat does), the parsing loop never accesses
a sample entry at an index `≥ cg_cpu_usage_size` (every traced index is below
`size`; lines with `N ≥ size` are skipped), and the working CPU count
`nprocs = min(get_nprocs_conf(), cg_cpu_usage_size)` used by every later
phase is clamped to at most `cg_cpu_usage_size`. -/
theorem C10_parse_inbounds (size : Nat) (inSet : Nat → Bool)
    (sample0 : List CpuacctUsage) (lines : List HostLine) (nprocsConf : Nat)
    (hinc : List.Pairwise (· < ·) (cpuNums lines)) :
    (∀ t ∈ (cpuviewParse size inSet sample0 lines).tr, t < size) ∧
      (if size < nprocsConf then size else nprocsConf) ≤ size := by
  constructor
  · exact parse_trace_inbounds size inSet lines 0 0 sample0 [] "" hinc
      (fun m _ => Nat.zero_le m) (fun t ht => absurd ht (List.not_mem_nil t))
  · split <;> omega

/-- C10 (witness): the amended theorem applied to a concrete two-line table
with increasing cpu numbers. -/
theorem C10_parse_inbounds_witness :
    (∀ t ∈ (cpuviewParse 2 (fun _ => true) [zeroU, zeroU]
      [HostLine.cpuLn "cpu0 0 0 0 0 0 0 0 0 0 0\n" 0 0 0 0 0 0 0 0 0 0 0,
        HostLine.cpuLn "cpu1 0 0 0 0 0 0 0 0 0 0\n" 1 0 0 0 0 0 0 0 0 0 0]).tr,
      t < 2) ∧
      (if 2 < 3 then 2 else 3) ≤ 2 :=
  C10_parse_inbounds 2 (fun _ => true) [zeroU, zeroU]
    [HostLine.cpuLn "cpu0 0 0 0 0 0 0 0 0 0 0\n" 0 0 0 0 0 0 0 0 0 0 0,
      HostLine.cpuLn "cpu1 0 0 0 0 0 0 0 0 0 0\n" 1 0 0 0 0 0 0 0 0 0 0] 3 (by decide)


/-! Claim C9. -/

theorem sumLen_cons (p : String) (ps : List String) :
    sumLen (p :: ps) = p.length + sumLen ps := by
  simp [sumLen]

theorem writePieces_success :
    ∀ (ps : List String) (bufSize : Nat), sumLen ps < bufSize →
      writePieces ps bufSize = some (catAll ps, sumLen ps)
  | [], _, _ => rfl
  | p :: ps, bufSize, h => by
    have hc := sumLen_cons p ps
    have hns : ¬ bufSize ≤ p.length := by omega
    show (if bufSize ≤ p.length then none else
        match writePieces ps (bufSize - p.length) with
        | none => none
        | some sm => some (p ++ sm.1, p.length + sm.2)) = _
    rw [if_neg hns, writePieces_success ps (bufSize - p.length) (by omega)]
    show some (p ++ catAll ps, p.length + sumLen ps) = some (catAll (p :: ps), sumLen (p :: ps))
    rw [hc]
    rfl

theorem renderLoop_eq (usage view : List CpuacctUsage) (maxCpus : Nat) (hm : 0 < maxCpus) :
    ∀ (is : List Nat) (v : Nat), v ≤ maxCpus →
      renderLoop usage view maxCpus is v =
        (List.enumFrom v ((is.filter fun c => (usage.getD c zeroU).online).take
            (maxCpus - v))).map
          (fun p => cpuNLine p.1 (view.getD p.2 zeroU).user (view.getD p.2 zeroU).system
            (view.getD p.2 zeroU).idle)
  | [], v, _ => by simp [renderLoop]
  | c :: cs, v, hv => by
    simp only [renderLoop]
    by_cases hon : (usage.getD c zeroU).online = true
    · rw [if_pos hon, @List.filter_cons_of_pos _ (fun i => (usage.getD i zeroU).online) c cs hon]
      by_cases hveq : v = maxCpus
      · rw [if_pos (show 0 < maxCpus ∧ v = maxCpus from ⟨hm, hveq⟩)]
        have h0 : maxCpus - v = 0 := by omega
        rw [h0, List.take_zero]
        rfl
      · rw [if_neg (show ¬ (0 < maxCpus ∧ v = maxCpus) from fun hq => hveq hq.2)]
        rw [renderLoop_eq usage view maxCpus hm cs (v + 1) (by omega)]
        have hsub : maxCpus - v = maxCpus - (v + 1) + 1 := by omega
        rw [hsub, List.take_succ_cons, List.enumFrom_cons, List.map_cons]
    · rw [if_neg hon, @List.filter_cons_of_neg _ (fun i => (usage.getD i zeroU).online) c cs hon]
      exact renderLoop_eq usage view maxCpus hm cs v hv

theorem enumFrom_map_cpuN (view : List CpuacctUsage) :
    ∀ (l : List Nat) (a : Nat),
      (List.enumFrom a l).map (fun p => cpuNLine p.1 (view.getD p.2 zeroU).user
          (view.getD p.2 zeroU).system (view.getD p.2 zeroU).idle) =
        (List.range l.length).map (fun j => cpuNLine (a + j)
          (view.getD (l.getD j 0) zeroU).user (view.getD (l.getD j 0) zeroU).system
          (view.getD (l.getD j 0) zeroU).idle)
  | [], _ => by simp
  | c :: l2, a => by
    rw [List.enumFrom_cons, List.map_cons, enumFrom_map_cpuN view l2 (a + 1)]
    show _ = (List.range (l2.length + 1)).map (fun j => cpuNLine (a + j)
      (view.getD ((c :: l2).getD j 0) zeroU).user (view.getD ((c :: l2).getD j 0) zeroU).system
      (view.getD ((c :: l2).getD j 0) zeroU).idle)
    rw [List.range_succ_eq_map, List.map_cons, List.map_map]
    refine congrArg (fun t => cpuNLine a (view.getD c zeroU).user (view.getD c zeroU).system
      (view.getD c zeroU).idle :: t) (List.map_congr_left ?_)
    intro j hj
    show cpuNLine (a + 1 + j) (view.getD (l2.getD j 0) zeroU).user
        (view.getD (l2.getD j 0) zeroU).system (view.getD (l2.getD j 0) zeroU).idle =
      cpuNLine (a + (j + 1)) (view.getD ((c :: l2).getD (j + 1) 0) zeroU).user
        (view.getD ((c :: l2).getD (j + 1) 0) zeroU).system
        (view.getD ((c :: l2).getD (j + 1) 0) zeroU).idle
    have hx : a + 1 + j = a + (j + 1) := by omega
    rw [hx]
    rfl

theorem getD_take (l : List Nat) (n j : Nat) (hj : j < n) :
    (l.take n).getD j 0 = l.getD j 0 := by
  rw [List.getD_eq_getElem?_getD, List.getD_eq_getElem?_getD, List.getElem?_take, if_pos hj]

theorem length_take_min (l : List Nat) (n : Nat) : (l.take n).length = min n l.length := by
  rw [List.length_take]

theorem renderLoop_range (usage view : List CpuacctUsage) (maxCpus n : Nat) (hm : 0 < maxCpus) :
    renderLoop usage view maxCpus (List.range n) 0 =
      (List.range (min maxCpus (onlineIdx usage n).length)).map (fun j =>
        cpuNLine j (view.getD ((onlineIdx usage n).getD j 0) zeroU).user
          (view.getD ((onlineIdx usage n).getD j 0) zeroU).system
          (view.getD ((onlineIdx usage n).getD j 0) zeroU).idle) := by
  rw [renderLoop_eq usage view maxCpus hm (List.range n) 0 (Nat.zero_le _), Nat.sub_zero]
  show (List.enumFrom 0 ((onlineIdx usage n).take maxCpus)).map _ = _
  rw [enumFrom_map_cpuN view ((onlineIdx usage n).take maxCpus) 0, length_take_min]
  apply List.map_congr_left
  intro j hj
  have hj2 : j < maxCpus := by
    have h3 := List.mem_range.mp hj
    omega
  show cpuNLine (0 + j) (view.getD (((onlineIdx usage n).take maxCpus).getD j 0) zeroU).user
      (view.getD (((onlineIdx usage n).take maxCpus).getD j 0) zeroU).system
      (view.getD (((onlineIdx usage n).take maxCpus).getD j 0) zeroU).idle =
    cpuNLine j (view.getD ((onlineIdx usage n).getD j 0) zeroU).user
      (view.getD ((onlineIdx usage n).getD j 0) zeroU).system
      (view.getD ((onlineIdx usage n).getD j 0) zeroU).idle
  rw [Nat.zero_add, getD_take _ _ _ hj2]

/-- C9: on a successful read, `cpuview_proc_stat` writes the aggregate line
`cpu  {user_sum} 0 {system_sum} {idle_sum} 0 0 0 0 0 0` (two spaces after the
label, only user/system/idle non-zero), then one line per visible CPU
labelled contiguously `cpu0`, `cpu1`, ... in index order -- the label is the
position among the online CPUs, independent of gaps in the physical CPU
numbering -- each carrying that CPU's view user, system and idle with all
other fields zero, then the retained first non-`cpuN` host line and the rest
of the host table verbatim; the return value is the total length written. -/
theorem C9_render_format (cfs_quota cfs_period : Option Int) (nr np : Nat)
    (inSet : Nat → Bool) (size : Nat) (sample0 : List CpuacctUsage)
    (lines : List HostLine) (nprocsConf : Nat) (found : Option CgProcStat)
    (createOk expandOk : Bool) (bufSize : Nat) (l0 : HostLine)
    (rest2 : List HostLine) (node0 : CgProcStat) (nprocs maxCpus : Nat)
    (pr : ParseResult) (r : UpdateResult) (vis : List Nat) (pieces : List String)
    (hnp : nprocs = if size < nprocsConf then size else nprocsConf)
    (hpr : pr = cpuviewParse size inSet sample0 lines)
    (hmx : maxCpus = if pr.cpu_cnt < max_cpu_count cfs_quota cfs_period nr np then pr.cpu_cnt
      else max_cpu_count cfs_quota cfs_period nr np)
    (hr : r = cpuviewUpdate nprocs maxCpus pr.cpu_cnt (exact_cpu_count cfs_quota cfs_period np)
      pr.sample node0)
    (hvis : vis = onlineIdx r.node.usage nprocs)
    (hpieces : pieces = cpuAllLine r.user_sum r.system_sum r.idle_sum ::
      ((List.range (min maxCpus vis.length)).map (fun j =>
        cpuNLine j (r.node.view.getD (vis.getD j 0) zeroU).user
          (r.node.view.getD (vis.getD j 0) zeroU).system
          (r.node.view.getD (vis.getD j 0) zeroU).idle) ++
        l0.raw :: rest2.map HostLine.raw))
    (hfc : find_or_create_proc_stat_node found pr.sample nprocs createOk expandOk = some node0)
    (hm : 0 < maxCpus)
    (hrem : pr.remaining = l0 :: rest2)
    (hbuf : sumLen pieces < bufSize) :
    (cpuview_proc_stat cfs_quota cfs_period nr np inSet size sample0 lines nprocsConf found
        createOk expandOk true bufSize).out = catAll pieces ∧
    (cpuview_proc_stat cfs_quota cfs_period nr np inSet size sample0 lines nprocsConf found
        createOk expandOk true bufSize).ret = sumLen pieces := by
  subst hnp hpr hmx hr hvis hpieces
  have htail : tailPieces (cpuviewParse size inSet sample0 lines) =
      l0.raw :: rest2.map HostLine.raw := by
    simp only [tailPieces, hrem]
  refine ⟨?_, ?_⟩
  · simp only [cpuview_proc_stat, hfc]
    rw [renderLoop_range _ _ _ _ hm, htail, writePieces_success _ _ hbuf]
    rfl
  · simp only [cpuview_proc_stat, hfc]
    rw [renderLoop_range _ _ _ _ hm, htail, writePieces_success _ _ hbuf]
    rfl

/-- C9 (witness): the render-format theorem applied to the cpuset-gap
scenario: host CPUs 0-3, cpuset restricted to CPUs 0 and 2, quota of two
CPUs, so the two visible CPUs are relabelled `cpu0` and `cpu1`. -/
theorem C9_render_format_witness :
    sumLen cpusetGapPieces < 4096 ∧
    (cpuview_proc_stat (some 200000) (some 100000) 2 4 cpusetGapSet 4 cpusetGapSample
        cpusetGapLines 4 none true true true 4096).out = catAll cpusetGapPieces ∧
    (cpuview_proc_stat (some 200000) (some 100000) 2 4 cpusetGapSet 4 cpusetGapSample
        cpusetGapLines 4 none true true true 4096).ret = sumLen cpusetGapPieces :=
  ⟨by decide,
   C9_render_format (some 200000) (some 100000) 2 4 cpusetGapSet 4 cpusetGapSample
     cpusetGapLines 4 none true true 4096 (HostLine.otherLn "intr 0 0 0\n") []
     (new_proc_stat_node (cpuviewParse 4 cpusetGapSet cpusetGapSample cpusetGapLines).sample 4)
     4 2 (cpuviewParse 4 cpusetGapSet cpusetGapSample cpusetGapLines) cpusetGapRun
     cpusetGapVis cpusetGapPieces (by decide) rfl (by decide) (by decide) rfl rfl rfl
     (by decide) (by decide) (by decide)⟩

end Cpuview
